import Mathlib

/-!
Verification of the DigOS phase1-crimos kernel core (process table, scheduler,
syscall dispatcher) via a shallow embedding of src/phase1-crimos/src/kproc.c,
scheduler.c and ksyscall.c.

Modelling conventions:
* C pointers into the process table become indices of type Fin PROC_MAX;
  a NULL process pointer becomes Option.none; pointer/entry conversions
  (proc_to_entry, entry_to_proc) become the identity on indices.
* kernel_panic (a kernel halt, never returning) is modelled as Except.error;
  reaching .error means the kernel halted with that diagnostic.
* Machine ints are modelled as Int (no arithmetic in the sources overflows
  32 bits on the inputs considered).
* The queue utility (queue.c) and the project headers (kernel.h, kproc.h,
  scheduler.h, ksyscall.h, spede headers) are not present under src/.
  They are modelled from the spec: the queue is a bounded FIFO of integers
  with enqueue -> Ok | Full and dequeue -> v | Empty (spec section 4.2,
  "bounded circular FIFO of integer values, fixed capacity, preserving
  insertion order"), and the numeric constants are fixed values chosen to
  match the spec (queue capacity equals table capacity; spec section 8 uses
  a table of capacity 4).
* The per-process private stack regions are modelled as one flat byte
  array stackMem; the address of byte j of stack i is STACK_BASE + 16*i + j,
  with STACK_BASE > 0 so that address 0 models the C NULL pointer.
  memset on an address range zeroes exactly the bytes of stackMem whose
  addresses fall in the range (writes outside the array change nothing,
  as the array is the only memory modelled).
-/


deriving instance DecidableEq for Except

/-- Modelled from the spec: PROC_MAX from the missing kproc.h; the spec fixes
only that the table capacity is fixed, and its section 8 example uses 4. -/
def PROC_MAX : Nat := 4

/-- Modelled from the spec: queue capacity, sized to equal table capacity
(spec section 4.3). -/
def QUEUE_SIZE : Nat := 4

/-- Modelled from the spec: fixed per-process stack size from the missing
kproc.h; any positive value works for the claims considered. -/
def PROC_STACK_SIZE : Nat := 16

/-- Modelled from the spec: bound of the PCB name buffer (missing kproc.h). -/
def PROC_NAME_LEN : Nat := 8

/-- Modelled from the spec: base address of the proc_stack array; any
positive value works (address 0 models the C NULL pointer). -/
def STACK_BASE : Int := 4096

/-- Modelled from the spec: the scheduler quantum from the missing
scheduler.h; any positive value works for the claims considered. -/
def SCHEDULER_TIMESLICE : Int := 2

/-- Modelled from the spec: kernel identity string (OS_NAME in the missing
kernel.h). -/
def OS_NAME : List Char := "DigOS".toList

/-- Process states (kproc.h is missing; the spec lists
NONE, IDLE, ACTIVE, SLEEPING, with NONE the all-zero pre-creation state). -/
inductive ProcState where
  | NONE
  | IDLE
  | ACTIVE
  | SLEEPING
  deriving DecidableEq, Repr

/-- Process types (kernel or user). -/
inductive ProcType where
  | KERNEL
  | USER
  deriving DecidableEq, Repr

/-- Which scheduler queue a PCB back-reference names (proc->scheduler_queue
is a pointer that is only ever NULL, &run_queue or &sleep_queue). -/
inductive SchedQ where
  | runq
  | sleepq
  deriving DecidableEq, Repr

/-- Saved execution context (trapframe.h is missing from src; fields are the
ones the sources in src read or write). -/
structure trapframe_t where
  eip : Int
  eflags : Int
  esp : Int
  eax : Int
  ebx : Int
  cs : Int
  ds : Int
  es : Int
  fs : Int
  gs : Int
  deriving DecidableEq, Repr

/-- Process control block, from kproc.c usage and the spec data model.
The trapframe field models the trapframe pointer together with the pointed-to
saved context (none models a NULL pointer); stack models the stack pointer
field (an address, 0 for NULL). -/
structure proc_t where
  pid : Int
  state : ProcState
  ptype : ProcType
  name : List Char
  start_time : Int
  run_time : Int
  cpu_time : Int
  sleep_time : Int
  scheduler_queue : Option SchedQ
  trapframe : Option trapframe_t
  stack : Int
  deriving DecidableEq, Repr

/-- The all-zero PCB: what memset(proc, 0, sizeof(proc_t)) produces.
All integers 0, state NONE (value 0), type KERNEL (value 0), empty name,
NULL scheduler_queue, NULL trapframe, NULL stack pointer. -/
def proc_zero : proc_t :=
  { pid := 0, state := .NONE, ptype := .KERNEL, name := [],
    start_time := 0, run_time := 0, cpu_time := 0, sleep_time := 0,
    scheduler_queue := none, trapframe := none, stack := 0 }

/-- Modelled from the spec: queue.c is not under src. A queue is a bounded
FIFO of integers, capacity QUEUE_SIZE, preserving insertion order. -/
abbrev queue_t := List Int

/-- Modelled from the spec: enqueue -> Ok | Full. none models the Full
error status. -/
def queue_in (q : queue_t) (v : Int) : Option queue_t :=
  if q.length < QUEUE_SIZE then some (q ++ [v]) else none

/-- Modelled from the spec: dequeue -> v | Empty. none models the Empty
error status; call sites in src that take the status take it from here. -/
def queue_out (q : queue_t) : Option (Int × queue_t) :=
  match q with
  | [] => none
  | x :: xs => some (x, xs)

/-- Modelled from the spec: queue emptiness test. -/
def queue_is_empty (q : queue_t) : Bool :=
  q.isEmpty

/-- The whole kernel state: the global variables of kproc.c and scheduler.c
(proc_table, proc_stack, proc_allocator, next_pid, run_queue, sleep_queue,
active_proc) together with the timer tick counter consumed via
timer_get_ticks (timer.c is not under src; the spec describes it as a
monotonic tick counter). -/
structure State where
  proc_table : Fin PROC_MAX → proc_t
  stackMem : List Nat
  proc_allocator : queue_t
  run_queue : queue_t
  sleep_queue : queue_t
  active_proc : Option (Fin PROC_MAX)
  next_pid : Int
  ticks : Int

-- Equality of kernel states is decidable (the table is a function on the
-- finite index type), which lets concrete executions be settled by decide.
deriving instance DecidableEq for State

/-- pid_to_proc from kproc.c: linear scan of the table for a matching pid
with state different from NONE; NULL (none) when not found. -/
def pid_to_proc (s : State) (pid : Int) : Option (Fin PROC_MAX) :=
  (List.finRange PROC_MAX).find? fun i =>
    decide ((s.proc_table i).pid = pid ∧ (s.proc_table i).state ≠ .NONE)

/-- memset(addr, 0, len) restricted to the modelled stack memory: byte j of
stackMem has address STACK_BASE + j and is zeroed exactly when that address
falls in the interval [addr, addr + len). -/
def memset_stack (addr len : Int) (mem : List Nat) : List Nat :=
  mem.mapIdx fun j v =>
    if addr ≤ STACK_BASE + (j : Int) ∧ STACK_BASE + (j : Int) < addr + len then 0 else v

/-- scheduler_add from scheduler.c: set the back-reference to the run queue,
state IDLE, reset the timeslice counter, enqueue the pid; queue overflow is
a kernel panic. (The NULL-pointer panic branch is not representable: the
embedding passes table indices, which are never NULL.) -/
def scheduler_add (s : State) (i : Fin PROC_MAX) : Except String State :=
  let p := s.proc_table i
  let p := { p with scheduler_queue := some .runq, state := .IDLE, cpu_time := 0 }
  let s := { s with proc_table := Function.update s.proc_table i p }
  match queue_in s.run_queue p.pid with
  | some q => .ok { s with run_queue := q }
  | none => .error "Unable to add the process to the scheduler"

/-- The drain loop of scheduler_remove: for (i = 0; i < queue->size; i++)
dequeue one entry; the target pid is dropped, every other entry is
re-enqueued (enqueue failure is a kernel panic). The loop bound re-reads
the live queue size each iteration, exactly as the source does.
The dequeue is written with headI/tail: under the loop guard the queue is
nonempty, so this agrees with queue_out and the source's
dequeue-failure panic arm is dead code. -/
def remove_loop (target : Int) (i : Nat) (q : queue_t) : Except String queue_t :=
  if h : i < q.length then
    let pid := q.headI
    let rest := q.tail
    if pid = target then
      remove_loop target (i + 1) rest
    else
      if hfull : rest.length < QUEUE_SIZE then
        remove_loop target (i + 1) (rest ++ [pid])
      else
        .error "Unable to queue process back to the run queue"
  else
    .ok q
termination_by q.length - i
decreasing_by
  · have ht : q.tail.length = q.length - 1 := by
      simp
    omega
  · have ht : q.tail.length = q.length - 1 := by
      simp
    simp only [List.length_append, List.length_cons, List.length_nil, ht]
    omega

/-- scheduler_remove from scheduler.c: if the back-reference names a queue,
drain-and-selectively-requeue that queue and clear the back-reference;
in all cases clear active_proc if it is this process. -/
def scheduler_remove (s : State) (i : Fin PROC_MAX) : Except String State :=
  let p := s.proc_table i
  let clear_active : State → State := fun s =>
    if s.active_proc = some i then { s with active_proc := none } else s
  let table1 := Function.update s.proc_table i { p with scheduler_queue := none }
  match p.scheduler_queue with
  | some .runq =>
    match remove_loop p.pid 0 s.run_queue with
    | .error e => .error e
    | .ok q =>
      .ok (clear_active { s with run_queue := q, proc_table := table1 })
  | some .sleepq =>
    match remove_loop p.pid 0 s.sleep_queue with
    | .error e => .error e
    | .ok q =>
      .ok (clear_active { s with sleep_queue := q, proc_table := table1 })
  | none => .ok (clear_active s)

/-- scheduler_sleep from scheduler.c: set the absolute wake deadline and
state SLEEPING, remove the process from the scheduler, then enqueue the pid
into the sleep queue with the enqueue result ignored (and without updating
the back-reference). -/
def scheduler_sleep (s : State) (i : Fin PROC_MAX) (time : Int) : Except String State :=
  let p := s.proc_table i
  let table1 := Function.update s.proc_table i
    { p with sleep_time := s.ticks + time, state := .SLEEPING }
  let s := { s with proc_table := table1 }
  match scheduler_remove s i with
  | .error e => .error e
  | .ok s1 =>
    .ok { s1 with sleep_queue :=
      (queue_in s1.sleep_queue (s1.proc_table i).pid).getD s1.sleep_queue }

/-- scheduler_timer from scheduler.c: if a process is active, increment its
lifetime run time and its current timeslice counter. -/
def scheduler_timer (s : State) : State :=
  match s.active_proc with
  | none => s
  | some i =>
    let p := s.proc_table i
    let table1 := Function.update s.proc_table i
      { p with run_time := p.run_time + 1, cpu_time := p.cpu_time + 1 }
    { s with proc_table := table1 }

/-- One timer interrupt (timer.c is not under src; modelled from the spec:
a monotonic tick counter plus the registered scheduler_timer callback). -/
def timer_tick (s : State) : State :=
  scheduler_timer { s with ticks := s.ticks + 1 }

/-- The sleep-queue sweep of scheduler_run: for (i = 0; i < sleep_queue.size;
i++) dequeue one pid; an unresolvable pid is a kernel panic; a process whose
wake deadline has passed is re-added to the run queue via scheduler_add,
otherwise its pid is re-enqueued into the sleep queue with the enqueue result
ignored. The loop bound re-reads the live sleep-queue size each iteration,
exactly as the source does. The dequeue is written with headI/tail: under
the loop guard the queue is nonempty, so this agrees with queue_out and the
source's dequeue-failure panic arm is dead code. In the wake branch the
recursive call re-asserts sleep_queue := rest on the state returned by
scheduler_add; this is a no-op (lemma scheduler_add_sleep_queue) that lets
the termination measure read the sleep-queue length syntactically.
The list of pids dequeued and evaluated is returned alongside the final
state (instrumentation only: the state component is what the source
computes). -/
def sweep_loop (now : Int) (i : Nat) (s : State) (ev : List Int) :
    Except String (State × List Int) :=
  if h : i < s.sleep_queue.length then
    let pid := s.sleep_queue.headI
    let rest := s.sleep_queue.tail
    let s1 := { s with sleep_queue := rest }
    match pid_to_proc s1 pid with
    | none => .error "Invalid process in sleep queue"
    | some j =>
      if now ≥ (s1.proc_table j).sleep_time then
        match scheduler_add s1 j with
        | .error e => .error e
        | .ok s2 => sweep_loop now (i + 1) { s2 with sleep_queue := rest } (ev ++ [pid])
      else
        sweep_loop now (i + 1)
          { s1 with sleep_queue := (queue_in rest pid).getD rest } (ev ++ [pid])
  else
    .ok (s, ev)
termination_by s.sleep_queue.length - i
decreasing_by
  · have ht : s.sleep_queue.tail.length = s.sleep_queue.length - 1 := by
      simp
    simp only [ht]
    omega
  · have ht : s.sleep_queue.tail.length = s.sleep_queue.length - 1 := by
      simp
    simp only [queue_in]
    split
    · simp only [Option.getD_some, List.length_append, List.length_cons, List.length_nil, ht]
      omega
    · simp only [Option.getD_none, ht]
      omega

/-- scheduler_run, phase 1: a process marked active whose state is no longer
ACTIVE is unscheduled. -/
def scheduler_run_phase1 (s : State) : State :=
  match s.active_proc with
  | some i => if (s.proc_table i).state ≠ .ACTIVE then { s with active_proc := none } else s
  | none => s

/-- scheduler_run, phase 2: if the active process has exhausted its
timeslice, reset its counter, re-add it to the run queue unless it is the
idle process (pid 0, which is instead set to state IDLE), and clear the
active reference. -/
def scheduler_run_phase2 (s : State) : Except String State :=
  match s.active_proc with
  | some i =>
    if (s.proc_table i).cpu_time ≥ SCHEDULER_TIMESLICE then
      let p := s.proc_table i
      let table1 := Function.update s.proc_table i { p with cpu_time := 0 }
      let s := { s with proc_table := table1 }
      if (s.proc_table i).pid ≠ 0 then
        match scheduler_add s i with
        | .error e => .error e
        | .ok s2 => .ok { s2 with active_proc := none }
      else
        let table2 := Function.update s.proc_table i
          { (s.proc_table i) with state := .IDLE }
        .ok { s with proc_table := table2, active_proc := none }
    else
      .ok s
  | none => .ok s

/-- scheduler_run, phase 3: when no process is active, sweep the sleep queue
(if nonempty), dequeue the next pid from the run queue (defaulting to pid 0
when it is empty) and resolve it; an unresolvable pid is fatal. -/
def scheduler_run_dispatch (s : State) : Except String State :=
  match s.active_proc with
  | some _ => .ok s
  | none =>
    let swept : Except String State :=
      if queue_is_empty s.sleep_queue then .ok s
      else
        match sweep_loop s.ticks 0 s [] with
        | .error e => .error e
        | .ok (s2, _) => .ok s2
    match swept with
    | .error e => .error e
    | .ok s =>
      let pq : Int × State :=
        match queue_out s.run_queue with
        | some (v, q) => (v, { s with run_queue := q })
        | none => (0, s)
      match pid_to_proc pq.2 pq.1 with
      | none => .error "Unable to schedule a process!"
      | some j => .ok { pq.2 with active_proc := some j }

/-- scheduler_run, final step: the active process (whose absence at this
point is fatal) is marked ACTIVE. -/
def scheduler_run_final (s : State) : Except String State :=
  match s.active_proc with
  | none => .error "Unable to schedule a process!"
  | some j =>
    let table1 := Function.update s.proc_table j { (s.proc_table j) with state := .ACTIVE }
    .ok { s with proc_table := table1 }

/-- scheduler_run from scheduler.c: the four phases in source order. -/
def scheduler_run (s : State) : Except String State :=
  match scheduler_run_phase2 (scheduler_run_phase1 s) with
  | .error e => .error e
  | .ok s1 =>
    match scheduler_run_dispatch s1 with
    | .error e => .error e
    | .ok s2 => scheduler_run_final s2

/-- scheduler_init from scheduler.c: empty run and sleep queues (the timer
callback registration is modelled by the timer_tick step itself). -/
def scheduler_init (s : State) : State :=
  { s with run_queue := [], sleep_queue := [] }

/-- Modelled constant for EF_DEFAULT_VALUE | EF_INTR written into the
trapframe by kproc_create (missing spede headers); concrete value is
irrelevant to every claim. -/
def EF_DEFAULT_AND_INTR : Int := 512

/-- Modelled segment selector value (get_cs and friends). -/
def SEG_SEL : Int := 8

/-- strncpy of a process name into the PROC_NAME_LEN buffer followed by
forced null-termination at index PROC_NAME_LEN - 1: the stored name is the
source name truncated to PROC_NAME_LEN - 1 characters. -/
def copy_name (nm : List Char) : List Char :=
  nm.take (PROC_NAME_LEN - 1)

/-- kproc_create from kproc.c: pop a free slot from the allocator (-1 when
exhausted), build the stack pointer, trapframe and PCB fields, assign the
next never-reused pid, and register the process with the scheduler.
An out-of-range allocator entry would be an out-of-bounds array access in C
(undefined behavior); it is modelled as a halt. Fields kproc_create does not
write (sleep_time, scheduler_queue) keep their previous slot contents. -/
def kproc_create (s : State) (proc_ptr : Int) (proc_name : List Char)
    (proc_type : ProcType) : Except String (Int × State) :=
  match queue_out s.proc_allocator with
  | none => .ok (-1, s)
  | some (entryv, alloc1) =>
    let s := { s with proc_allocator := alloc1 }
    if hE : 0 ≤ entryv ∧ entryv < (PROC_MAX : Int) then
      let entry : Fin PROC_MAX := ⟨entryv.toNat, by omega⟩
      let stack_top : Int := STACK_BASE + entryv * (PROC_STACK_SIZE : Int) + (PROC_STACK_SIZE : Int)
      let tf : trapframe_t :=
        { eip := proc_ptr, eflags := EF_DEFAULT_AND_INTR, esp := stack_top,
          eax := 0, ebx := 0,
          cs := SEG_SEL, ds := SEG_SEL, es := SEG_SEL, fs := SEG_SEL, gs := SEG_SEL }
      let p0 := s.proc_table entry
      let p : proc_t :=
        { p0 with stack := stack_top, trapframe := some tf,
                  pid := s.next_pid, state := .IDLE, ptype := proc_type,
                  start_time := s.ticks, run_time := 0, cpu_time := 0,
                  name := copy_name proc_name }
      let s := { s with proc_table := Function.update s.proc_table entry p,
                        next_pid := s.next_pid + 1 }
      match scheduler_add s entry with
      | .error e => .error e
      | .ok s2 => .ok (p.pid, s2)
    else
      .error "out-of-range process table index (undefined behavior)"

/-- kproc_destroy from kproc.c: reject NULL, state NONE and pid 0; otherwise
remove from the scheduler, memset the PCB to zero, then memset
PROC_STACK_SIZE bytes starting at the PCB stack-pointer field as read AFTER
the PCB was zeroed (the source zeroes the PCB first, so this address is 0),
and re-enqueue the slot index into the allocator (result ignored;
proc_to_entry is pointer arithmetic on the slot address, which still yields
the slot index after the memset). -/
def kproc_destroy (s : State) (po : Option (Fin PROC_MAX)) : Except String (Int × State) :=
  match po with
  | none => .ok (-1, s)
  | some i =>
    let p := s.proc_table i
    if p.state = .NONE ∨ p.pid = 0 then
      .ok (-1, s)
    else
      match scheduler_remove s i with
      | .error e => .error e
      | .ok s1 =>
        let s2 := { s1 with proc_table := Function.update s1.proc_table i proc_zero }
        let addr := (s2.proc_table i).stack
        let s3 := { s2 with stackMem := memset_stack addr (PROC_STACK_SIZE : Int) s2.stackMem }
        let s4 := { s3 with proc_allocator :=
          (queue_in s3.proc_allocator ((i : Nat) : Int)).getD s3.proc_allocator }
        .ok (0, s4)

/-- Modelled address of the kproc_idle function (a code pointer; its value
is irrelevant to every claim). -/
def KPROC_IDLE_ADDR : Int := 65536

/-- kproc_init from kproc.c: mark every table entry unused (pid -1), fill
the allocator with all slot indices (enqueue results ignored), null-terminate
the last byte of each stack, and create the idle process; failure to create
it is fatal. -/
def kproc_init (s : State) : Except String State :=
  let table1 : Fin PROC_MAX → proc_t := fun i => { s.proc_table i with pid := -1 }
  let alloc1 : queue_t :=
    (List.range PROC_MAX).foldl (fun q i => (queue_in q (i : Int)).getD q) []
  let mem1 : List Nat :=
    s.stackMem.mapIdx fun j v => if (j + 1) % PROC_STACK_SIZE = 0 then 0 else v
  let s := { s with proc_table := table1, proc_allocator := alloc1, stackMem := mem1 }
  match kproc_create s KPROC_IDLE_ADDR "kernel_idle".toList .KERNEL with
  | .error e => .error e
  | .ok (pid, s1) =>
    if pid = -1 then .error "Failed to create idle process"
    else .ok s1

/-- The kernel state at boot, before any initialization: global (zeroed)
C objects and tick count 0. -/
def boot_state : State :=
  { proc_table := fun _ => proc_zero,
    stackMem := List.replicate (PROC_MAX * PROC_STACK_SIZE) 0,
    proc_allocator := [], run_queue := [], sleep_queue := [],
    active_proc := none, next_pid := 0, ticks := 0 }

/-- Kernel initialization: scheduler_init then kproc_init (scheduler queues
must exist before the idle process is registered). -/
def kernel_init : Except String State :=
  kproc_init (scheduler_init boot_state)

/-- The initialized kernel state (kernel_init succeeds; the error arm is
never taken). -/
def init_state : State :=
  match kernel_init with
  | .ok s => s
  | .error _ => boot_state

/-- The kernel state after the first scheduling decision following
initialization (scheduler_run succeeds there; the error arm is never
taken). -/
def post_init_state : State :=
  match scheduler_run init_state with
  | .ok s => s
  | .error _ => boot_state

/-! ## Queue lemmas and executable twins of the drain loops.
The loops are defined by well-founded recursion, mirroring the source; the
kernel does not reduce well-founded fixpoints, so concrete executions are
evaluated through structurally recursive fuel-indexed twins, proved equal to
the loops whenever the fuel is at least the loop measure. -/

def remove_loop_fuel (target : Int) : Nat → Nat → queue_t → Except String queue_t
  | 0, _, q => .ok q
  | fuel + 1, i, q =>
    if i < q.length then
      if q.headI = target then
        remove_loop_fuel target fuel (i + 1) q.tail
      else
        if q.tail.length < QUEUE_SIZE then
          remove_loop_fuel target fuel (i + 1) (q.tail ++ [q.headI])
        else
          .error "Unable to queue process back to the run queue"
    else
      .ok q

def sweep_loop_fuel (now : Int) : Nat → Nat → State → List Int → Except String (State × List Int)
  | 0, _, s, ev => .ok (s, ev)
  | fuel + 1, i, s, ev =>
    if i < s.sleep_queue.length then
      let pid := s.sleep_queue.headI
      let rest := s.sleep_queue.tail
      let s1 := { s with sleep_queue := rest }
      match pid_to_proc s1 pid with
      | none => .error "Invalid process in sleep queue"
      | some j =>
        if now ≥ (s1.proc_table j).sleep_time then
          match scheduler_add s1 j with
          | .error e => .error e
          | .ok s2 => sweep_loop_fuel now fuel (i + 1) { s2 with sleep_queue := rest } (ev ++ [pid])
        else
          sweep_loop_fuel now fuel (i + 1)
            { s1 with sleep_queue := (queue_in rest pid).getD rest } (ev ++ [pid])
    else
      .ok (s, ev)

/-- scheduler_remove with the drain loop run through its fuel twin
(evaluation form; provably equal to scheduler_remove). -/
def scheduler_remove_exec (s : State) (i : Fin PROC_MAX) : Except String State :=
  let p := s.proc_table i
  let clear_active : State → State := fun s =>
    if s.active_proc = some i then { s with active_proc := none } else s
  let table1 := Function.update s.proc_table i { p with scheduler_queue := none }
  match p.scheduler_queue with
  | some .runq =>
    match remove_loop_fuel p.pid s.run_queue.length 0 s.run_queue with
    | .error e => .error e
    | .ok q =>
      .ok (clear_active { s with run_queue := q, proc_table := table1 })
  | some .sleepq =>
    match remove_loop_fuel p.pid s.sleep_queue.length 0 s.sleep_queue with
    | .error e => .error e
    | .ok q =>
      .ok (clear_active { s with sleep_queue := q, proc_table := table1 })
  | none => .ok (clear_active s)

/-- scheduler_sleep in evaluation form. -/
def scheduler_sleep_exec (s : State) (i : Fin PROC_MAX) (time : Int) : Except String State :=
  let p := s.proc_table i
  let table1 := Function.update s.proc_table i
    { p with sleep_time := s.ticks + time, state := .SLEEPING }
  let s := { s with proc_table := table1 }
  match scheduler_remove_exec s i with
  | .error e => .error e
  | .ok s1 =>
    .ok { s1 with sleep_queue :=
      (queue_in s1.sleep_queue (s1.proc_table i).pid).getD s1.sleep_queue }

/-- kproc_destroy in evaluation form. -/
def kproc_destroy_exec (s : State) (po : Option (Fin PROC_MAX)) : Except String (Int × State) :=
  match po with
  | none => .ok (-1, s)
  | some i =>
    let p := s.proc_table i
    if p.state = .NONE ∨ p.pid = 0 then
      .ok (-1, s)
    else
      match scheduler_remove_exec s i with
      | .error e => .error e
      | .ok s1 =>
        let s2 := { s1 with proc_table := Function.update s1.proc_table i proc_zero }
        let addr := (s2.proc_table i).stack
        let s3 := { s2 with stackMem := memset_stack addr (PROC_STACK_SIZE : Int) s2.stackMem }
        let s4 := { s3 with proc_allocator :=
          (queue_in s3.proc_allocator ((i : Nat) : Int)).getD s3.proc_allocator }
        .ok (0, s4)

/-- scheduler_run phase 3 in evaluation form. -/
def scheduler_run_dispatch_exec (s : State) : Except String State :=
  match s.active_proc with
  | some _ => .ok s
  | none =>
    let swept : Except String State :=
      if queue_is_empty s.sleep_queue then .ok s
      else
        match sweep_loop_fuel s.ticks s.sleep_queue.length 0 s [] with
        | .error e => .error e
        | .ok (s2, _) => .ok s2
    match swept with
    | .error e => .error e
    | .ok s =>
      let pq : Int × State :=
        match queue_out s.run_queue with
        | some (v, q) => (v, { s with run_queue := q })
        | none => (0, s)
      match pid_to_proc pq.2 pq.1 with
      | none => .error "Unable to schedule a process!"
      | some j => .ok { pq.2 with active_proc := some j }

/-- scheduler_run in evaluation form. -/
def scheduler_run_exec (s : State) : Except String State :=
  match scheduler_run_phase2 (scheduler_run_phase1 s) with
  | .error e => .error e
  | .ok s1 =>
    match scheduler_run_dispatch_exec s1 with
    | .error e => .error e
    | .ok s2 => scheduler_run_final s2

/-! ## Syscall layer (ksyscall.c) -/

/-- Modelled from the spec: the syscall identifiers live in the missing
ksyscall.h. The dispatcher only compares the saved EAX against them for
equality, so any pairwise distinct values model them faithfully. -/
def SYSCALL_SYS_GET_TIME : Int := 1

/-- Modelled syscall identifier (see SYSCALL_SYS_GET_TIME). -/
def SYSCALL_SYS_GET_NAME : Int := 2

/-- Modelled syscall identifier (see SYSCALL_SYS_GET_TIME). -/
def SYSCALL_PROC_EXIT : Int := 16

/-- Modelled syscall identifier (see SYSCALL_SYS_GET_TIME). -/
def SYSCALL_PROC_GET_PID : Int := 17

/-- Modelled syscall identifier (see SYSCALL_SYS_GET_TIME). -/
def SYSCALL_PROC_GET_NAME : Int := 18

/-- Modelled syscall identifier for the sleep library operation
(see SYSCALL_SYS_GET_TIME). -/
def SYSCALL_PROC_SLEEP : Int := 19

/-- Modelled syscall identifier for the IO read operation. -/
def SYSCALL_IO_READ : Int := 32

/-- Modelled syscall identifier for the IO write operation. -/
def SYSCALL_IO_WRITE : Int := 33

/-- Modelled syscall identifier for the IO flush operation. -/
def SYSCALL_IO_FLUSH : Int := 34

/-- ksyscall_sys_get_time from ksyscall.c: ticks divided by the tick
frequency (100, from the source). Reads the kernel state only. -/
def ksyscall_sys_get_time (s : State) : Int :=
  s.ticks / 100

/-- ksyscall_sys_get_name from ksyscall.c: fails (-1) if the buffer pointer
is NULL (modelled as address 0), else copies OS_NAME into the caller's
buffer and returns 0. The copied content is returned alongside the status
(the caller buffer is user memory outside the kernel state; the source
writes nothing else). -/
def ksyscall_sys_get_name (name_ptr : Int) : Int × Option (List Char) :=
  if name_ptr = 0 then (-1, none) else (0, some OS_NAME)

/-- ksyscall_proc_get_pid from ksyscall.c: -1 with no active process, else
the active process's pid. Reads the kernel state only. -/
def ksyscall_proc_get_pid (s : State) : Int :=
  match s.active_proc with
  | none => -1
  | some i => (s.proc_table i).pid

/-- ksyscall_proc_get_name from ksyscall.c: -1 if there is no active process
OR the buffer pointer is NULL; else copies the active process's name
(strncpy, at most PROC_NAME_LEN characters) and returns 0. The copied
content is returned alongside the status; the kernel state is only read. -/
def ksyscall_proc_get_name (s : State) (name_ptr : Int) : Int × Option (List Char) :=
  match s.active_proc with
  | none => (-1, none)
  | some i =>
    if name_ptr = 0 then (-1, none)
    else (0, some ((s.proc_table i).name.take PROC_NAME_LEN))

/-- ksyscall_proc_sleep from ksyscall.c: -1 with no active process, else
put the active process to sleep for seconds * 100 ticks and return 0. -/
def ksyscall_proc_sleep (s : State) (seconds : Int) : Except String (Int × State) :=
  match s.active_proc with
  | none => .ok (-1, s)
  | some i =>
    match scheduler_sleep s i (seconds * 100) with
    | .error e => .error e
    | .ok s1 => .ok (0, s1)

/-- ksyscall_proc_exit from ksyscall.c: -1 with no active process, else set
the active process's state to NONE, reschedule via scheduler_run, and
return 0. -/
def ksyscall_proc_exit (s : State) : Except String (Int × State) :=
  match s.active_proc with
  | none => .ok (-1, s)
  | some i =>
    let table1 := Function.update s.proc_table i
      { (s.proc_table i) with state := .NONE }
    let s := { s with proc_table := table1 }
    match scheduler_run s with
    | .error e => .error e
    | .ok s1 => .ok (0, s1)

/-- The dispatcher's write-back of a handler result into the saved EAX field
of the (current) active process: active_proc->trapframe->eax = rc. A NULL
active process or trapframe at this point would be a NULL dereference
(modelled as a halt). -/
def write_eax (s : State) (rc : Int) : Except String State :=
  match s.active_proc with
  | none => .error "NULL active process dereference"
  | some i =>
    match (s.proc_table i).trapframe with
    | none => .error "NULL trapframe dereference"
    | some tf =>
      let table1 := Function.update s.proc_table i
        { (s.proc_table i) with trapframe := some { tf with eax := rc } }
      .ok { s with proc_table := table1 }

/-- ksyscall_irq_handler from ksyscall.c: panic without an active process or
trapframe; otherwise compare the saved EAX against the five dispatched
identifiers in source order, run the matching handler, and write its result
back into the saved EAX; any other identifier panics. -/
def ksyscall_irq_handler (s : State) : Except String State :=
  match s.active_proc with
  | none => .error "Invalid process"
  | some i =>
    match (s.proc_table i).trapframe with
    | none => .error "Invalid trapframe"
    | some tf =>
      if tf.eax = SYSCALL_SYS_GET_TIME then
        write_eax s (ksyscall_sys_get_time s)
      else if tf.eax = SYSCALL_SYS_GET_NAME then
        write_eax s (ksyscall_sys_get_name tf.ebx).1
      else if tf.eax = SYSCALL_PROC_EXIT then
        match ksyscall_proc_exit s with
        | .error e => .error e
        | .ok (rc, s1) => write_eax s1 rc
      else if tf.eax = SYSCALL_PROC_GET_PID then
        write_eax s (ksyscall_proc_get_pid s)
      else if tf.eax = SYSCALL_PROC_GET_NAME then
        write_eax s (ksyscall_proc_get_name s tf.ebx).1
      else
        .error "Invalid system call!"

/-- The active process loads the syscall identifier and argument into its
saved EAX/EBX before raising the syscall trap (the saved context of the
running process is the modelled way it passes arguments). -/
def poke_regs (s : State) (v w : Int) : State :=
  match s.active_proc with
  | none => s
  | some i =>
    match (s.proc_table i).trapframe with
    | none => s
    | some tf =>
      let table1 := Function.update s.proc_table i
        { (s.proc_table i) with trapframe := some { tf with eax := v, ebx := w } }
      { s with proc_table := table1 }

/-! ## Reachable kernel states.
The kernel core is driven from outside by: process creation and destruction
(kernel setup / reaper), the scheduling decision point scheduler_run (invoked
after exits, sleeps, and on a timer cadence), the timer interrupt, the
syscall trap raised by the active process (which first loads its saved
EAX/EBX), and the sleep library operation routed to ksyscall_proc_sleep.
Halting executions (Except.error, a kernel panic) produce no successor. -/

inductive Step : State → State → Prop where
  | create (s : State) (ep : Int) (nm : List Char) (ty : ProcType) (r : Int) (s' : State) :
      kproc_create s ep nm ty = .ok (r, s') → Step s s'
  | destroy (s : State) (po : Option (Fin PROC_MAX)) (r : Int) (s' : State) :
      kproc_destroy s po = .ok (r, s') → Step s s'
  | sched (s s' : State) : scheduler_run s = .ok s' → Step s s'
  | tick (s : State) : Step s (timer_tick s)
  | syscall (s : State) (v w : Int) (s' : State) :
      ksyscall_irq_handler (poke_regs s v w) = .ok s' → Step s s'
  | sleepcall (s : State) (secs r : Int) (s' : State) :
      ksyscall_proc_sleep s secs = .ok (r, s') → Step s s'

/-- A kernel state is reachable when it arises from kernel initialization
by any sequence of interface steps. -/
inductive Reach : State → Prop where
  | init (s0 : State) : kernel_init = .ok s0 → Reach s0
  | step (s s' : State) : Reach s → Step s s' → Reach s'

/-- The scheduling invariant behind claim C1: every process whose state is
ACTIVE is the one the active-process reference names (so at most one process
is ACTIVE, and active_proc is never stale-while-ACTIVE). -/
def ActiveInv (s : State) : Prop :=
  ∀ k : Fin PROC_MAX, (s.proc_table k).state = .ACTIVE → s.active_proc = some k

/-- The idle process (pid 0) is live in the table. -/
def IdleLive (s : State) : Prop :=
  ∃ i : Fin PROC_MAX, (s.proc_table i).pid = 0 ∧ (s.proc_table i).state ≠ .NONE

/-! ## Concrete states used as explicit inputs of counterexamples and
witnesses. -/

/-- Table index 0. -/
def idx0 : Fin PROC_MAX := ⟨0, by decide⟩

/-- Table index 1. -/
def idx1 : Fin PROC_MAX := ⟨1, by decide⟩

/-- Table index 2. -/
def idx2 : Fin PROC_MAX := ⟨2, by decide⟩

/-- A PCB with the fields relevant to scheduling. -/
def mk_proc (pid : Int) (st : ProcState) (slt : Int) (sq : Option SchedQ) : proc_t :=
  { proc_zero with pid := pid, state := st, sleep_time := slt, scheduler_queue := sq }

/-- A trapframe whose saved EAX/EBX are the given values. -/
def mk_tf (eax ebx : Int) : trapframe_t :=
  { eip := 0, eflags := 0, esp := 0, eax := eax, ebx := ebx,
    cs := 0, ds := 0, es := 0, fs := 0, gs := 0 }

/-- Input of the C2 counterexample: processes 1, 2, 3 queued in the run
queue in this order, process 1 (slot 1) back-referencing the run queue. -/
def cex2_state : State :=
  { boot_state with
    proc_table := fun i =>
      if i = idx0 then mk_proc 0 .IDLE 0 none
      else if i = idx1 then mk_proc 1 .IDLE 0 (some .runq)
      else if i = idx2 then mk_proc 2 .IDLE 0 (some .runq)
      else mk_proc 3 .IDLE 0 (some .runq),
    run_queue := [1, 2, 3] }

/-- Input of the C3 counterexample: pids 1 and 2 asleep with expired wake
deadlines (deadline 0, current tick 5), idle live, no process active. -/
def cex3_state : State :=
  { boot_state with
    proc_table := fun i =>
      if i = idx0 then mk_proc 0 .IDLE 0 none
      else if i = idx1 then mk_proc 1 .SLEEPING 0 none
      else if i = idx2 then mk_proc 2 .SLEEPING 0 none
      else proc_zero,
    sleep_queue := [1, 2], ticks := 5 }

/-- Witness input for the amended C3: one sleeping process whose deadline
has not yet passed (deadline 9, current tick 5). -/
def wit3_state : State :=
  { boot_state with
    proc_table := fun i =>
      if i = idx0 then mk_proc 0 .IDLE 0 none
      else if i = idx1 then mk_proc 1 .SLEEPING 9 none
      else proc_zero,
    sleep_queue := [1], ticks := 5 }

/-- Input of the C4 counterexample: process 1 (slot 1) in the run queue with
a consistent back-reference, idle live, nothing asleep. -/
def cex4_state : State :=
  { boot_state with
    proc_table := fun i =>
      if i = idx0 then mk_proc 0 .IDLE 0 none
      else if i = idx1 then mk_proc 1 .IDLE 0 (some .runq)
      else proc_zero,
    run_queue := [1] }

/-- Input of the C7 counterexample: process 1 (slot 1) live in the run
queue, its stack pointer at the top of stack region 1
(STACK_BASE + 2 * PROC_STACK_SIZE = 4128), and a nonzero byte (77) inside
its private stack region (flat index 20, i.e. byte 4 of region 1). -/
def cex7_state : State :=
  { boot_state with
    proc_table := fun i =>
      if i = idx1 then { (mk_proc 1 .IDLE 0 (some .runq)) with stack := 4128 }
      else proc_zero,
    stackMem := (List.replicate (PROC_MAX * PROC_STACK_SIZE) 0).set 20 77,
    run_queue := [1] }

/-- Witness input for C8/C6: process 1 (slot 1) is active with a trapframe
and name "ab". -/
def wit8_state : State :=
  { boot_state with
    proc_table := fun i =>
      if i = idx0 then mk_proc 0 .IDLE 0 none
      else if i = idx1 then
        { (mk_proc 1 .ACTIVE 0 none) with
          name := "ab".toList,
          trapframe := some (mk_tf 0 0) }
      else proc_zero,
    active_proc := some idx1 }

/-- Witness input for C9: run queue [2, 3], process 1 (slot 1) not in it. -/
def wit9_state : State :=
  { boot_state with
    proc_table := fun i =>
      if i = idx0 then mk_proc 0 .IDLE 0 none
      else if i = idx1 then mk_proc 1 .IDLE 0 none
      else proc_zero,
    run_queue := [2, 3] }

/-- Witness input for C10: the sleep queue is full (capacity QUEUE_SIZE = 4,
holding pids 5, 6, 7, 8), process 1 (slot 1) is active with the stale run
queue back-reference every just-dispatched process has, and the run queue
holds pids 2 and 3. -/
def wit10_state : State :=
  { boot_state with
    proc_table := fun i =>
      if i = idx0 then mk_proc 0 .IDLE 0 none
      else if i = idx1 then mk_proc 1 .ACTIVE 0 (some .runq)
      else proc_zero,
    run_queue := [2, 3],
    sleep_queue := [5, 6, 7, 8],
    active_proc := some idx1,
    ticks := 40 }

/-- Input of the C6 counterexample: like wit8_state but the active process
has loaded the SLEEP syscall identifier into its saved EAX. -/
def cex6_state : State :=
  { boot_state with
    proc_table := fun i =>
      if i = idx0 then mk_proc 0 .IDLE 0 none
      else if i = idx1 then
        { (mk_proc 1 .ACTIVE 0 none) with
          name := "ab".toList,
          trapframe := some (mk_tf SYSCALL_PROC_SLEEP 0) }
      else proc_zero,
    active_proc := some idx1 }

/-- Witness input for C5: idle (pid 0) live in slot 0 and NOT in either
queue; process pid 1 queued to run. -/
def wit5_state : State :=
  { boot_state with
    proc_table := fun i =>
      if i = idx0 then mk_proc 0 .IDLE 0 none
      else if i = idx1 then mk_proc 1 .IDLE 0 (some .runq)
      else proc_zero,
    run_queue := [1] }

/-- scheduler_add leaves the sleep queue untouched. -/
theorem scheduler_add_sleep_queue {s s' : State} {i : Fin PROC_MAX}
    (h : scheduler_add s i = .ok s') : s'.sleep_queue = s.sleep_queue := by
  simp only [scheduler_add] at h
  split at h
  · cases h
    rfl
  · cases h

theorem queue_in_of_lt {q : queue_t} (v : Int) (h : q.length < QUEUE_SIZE) :
    queue_in q v = some (q ++ [v]) := by
  simp [queue_in, h]

theorem queue_in_of_full {q : queue_t} (v : Int) (h : ¬ q.length < QUEUE_SIZE) :
    queue_in q v = none := by
  simp [queue_in, h]

theorem remove_loop_fuel_zero (t : Int) (i : Nat) (q : queue_t) :
    remove_loop_fuel t 0 i q = .ok q := rfl

theorem remove_loop_fuel_succ (t : Int) (fuel i : Nat) (q : queue_t) :
    remove_loop_fuel t (fuel + 1) i q =
      if i < q.length then
        if q.headI = t then
          remove_loop_fuel t fuel (i + 1) q.tail
        else
          if q.tail.length < QUEUE_SIZE then
            remove_loop_fuel t fuel (i + 1) (q.tail ++ [q.headI])
          else
            .error "Unable to queue process back to the run queue"
      else
        .ok q := rfl

theorem remove_loop_eq_fuel (target : Int) :
    ∀ (fuel i : Nat) (q : queue_t), q.length - i ≤ fuel →
      remove_loop target i q = remove_loop_fuel target fuel i q := by
  intro fuel
  induction fuel with
  | zero =>
    intro i q hle
    rw [remove_loop, remove_loop_fuel_zero]
    have hnc : ¬ i < q.length := by omega
    simp [hnc]
  | succ fuel ih =>
    intro i q hle
    rw [remove_loop, remove_loop_fuel_succ]
    by_cases hc : i < q.length
    · have htl : q.tail.length = q.length - 1 := by
        simp
      simp only [hc, dite_true, if_true]
      by_cases ht : q.headI = target
      · simp only [ht, if_pos rfl, if_true]
        exact ih (i + 1) q.tail (by omega)
      · simp only [ht, if_false]
        by_cases hf : q.tail.length < QUEUE_SIZE
        · simp only [hf, dite_true, if_true]
          exact ih (i + 1) (q.tail ++ [q.headI]) (by simp [htl]; omega)
        · have hf2 : ¬ q.length - 1 < QUEUE_SIZE := by
            rw [htl] at hf
            exact hf
          simp [hf, hf2]
    · simp [hc]

theorem sweep_loop_fuel_zero (now : Int) (i : Nat) (s : State) (ev : List Int) :
    sweep_loop_fuel now 0 i s ev = .ok (s, ev) := rfl

theorem sweep_loop_fuel_succ (now : Int) (fuel i : Nat) (s : State) (ev : List Int) :
    sweep_loop_fuel now (fuel + 1) i s ev =
      (if i < s.sleep_queue.length then
        let pid := s.sleep_queue.headI
        let rest := s.sleep_queue.tail
        let s1 := { s with sleep_queue := rest }
        match pid_to_proc s1 pid with
        | none => .error "Invalid process in sleep queue"
        | some j =>
          if now ≥ (s1.proc_table j).sleep_time then
            match scheduler_add s1 j with
            | .error e => .error e
            | .ok s2 => sweep_loop_fuel now fuel (i + 1) { s2 with sleep_queue := rest } (ev ++ [pid])
          else
            sweep_loop_fuel now fuel (i + 1)
              { s1 with sleep_queue := (queue_in rest pid).getD rest } (ev ++ [pid])
      else
        .ok (s, ev)) := rfl

theorem sweep_loop_eq_fuel (now : Int) :
    ∀ (fuel i : Nat) (s : State) (ev : List Int), s.sleep_queue.length - i ≤ fuel →
      sweep_loop now i s ev = sweep_loop_fuel now fuel i s ev := by
  intro fuel
  induction fuel with
  | zero =>
    intro i s ev hle
    rw [sweep_loop, sweep_loop_fuel_zero]
    have hnc : ¬ i < s.sleep_queue.length := by omega
    simp [hnc]
  | succ fuel ih =>
    intro i s ev hle
    rw [sweep_loop, sweep_loop_fuel_succ]
    by_cases hc : i < s.sleep_queue.length
    · have htl : s.sleep_queue.tail.length = s.sleep_queue.length - 1 := by
        simp
      simp only [hc, dite_true, if_true]
      cases hpp : pid_to_proc { s with sleep_queue := s.sleep_queue.tail } s.sleep_queue.headI with
      | none => rfl
      | some j =>
        simp only []
        by_cases hs :
            now ≥ (({ s with sleep_queue := s.sleep_queue.tail } : State).proc_table j).sleep_time
        · simp only [hs, if_true]
          cases hadd : scheduler_add { s with sleep_queue := s.sleep_queue.tail } j with
          | error e => rfl
          | ok s2 =>
            refine ih (i + 1) _ _ ?_
            simp only []
            omega
        · simp only [hs, if_false]
          refine ih (i + 1) _ _ ?_
          simp only [queue_in]
          split
          · simp only [Option.getD_some, List.length_append, List.length_cons, List.length_nil,
              htl]
            omega
          · simp only [Option.getD_none, htl]
            omega
    · simp [hc]

theorem remove_loop_eq_fuel_base (target : Int) (q : queue_t) :
    remove_loop target 0 q = remove_loop_fuel target q.length 0 q :=
  remove_loop_eq_fuel target q.length 0 q (by omega)

theorem scheduler_remove_eq_exec (s : State) (i : Fin PROC_MAX) :
    scheduler_remove s i = scheduler_remove_exec s i := by
  unfold scheduler_remove scheduler_remove_exec
  simp only [remove_loop_eq_fuel_base]

theorem scheduler_sleep_eq_exec (s : State) (i : Fin PROC_MAX) (time : Int) :
    scheduler_sleep s i time = scheduler_sleep_exec s i time := by
  unfold scheduler_sleep scheduler_sleep_exec
  simp only [scheduler_remove_eq_exec]

theorem kproc_destroy_eq_exec (s : State) (po : Option (Fin PROC_MAX)) :
    kproc_destroy s po = kproc_destroy_exec s po := by
  unfold kproc_destroy kproc_destroy_exec
  simp only [scheduler_remove_eq_exec]

theorem sweep_loop_eq_fuel_base (now : Int) (s : State) (ev : List Int) :
    sweep_loop now 0 s ev = sweep_loop_fuel now s.sleep_queue.length 0 s ev :=
  sweep_loop_eq_fuel now s.sleep_queue.length 0 s ev (by omega)

theorem scheduler_run_dispatch_eq_exec (s : State) :
    scheduler_run_dispatch s = scheduler_run_dispatch_exec s := by
  unfold scheduler_run_dispatch scheduler_run_dispatch_exec
  simp only [sweep_loop_eq_fuel_base]

theorem scheduler_run_eq_exec (s : State) :
    scheduler_run s = scheduler_run_exec s := by
  unfold scheduler_run scheduler_run_exec
  simp only [scheduler_run_dispatch_eq_exec]

/-! ## Behavior of the drain loop -/

/-- Draining a queue that does not contain the target re-enqueues every
entry exactly once, so the loop returns the queue unchanged. -/
theorem remove_loop_absent (t : Int) (A B : queue_t) (hA : t ∉ A) (hB : t ∉ B)
    (hlen : A.length + B.length ≤ QUEUE_SIZE) :
    remove_loop t B.length (A ++ B) = .ok (B ++ A) := by
  induction A generalizing B with
  | nil =>
    rw [remove_loop]
    simp
  | cons x A ih =>
    rw [remove_loop]
    have hx : ¬ x = t := by
      intro hxe
      exact hA (by simp [hxe])
    have hcond : B.length < ((x :: A) ++ B).length := by
      simp
      omega
    have hfull : ((x :: A) ++ B).tail.length < QUEUE_SIZE := by
      simp at hlen ⊢
      omega
    simp only [hcond, dite_true, List.cons_append, List.headI_cons, List.tail_cons, hx,
      if_false, hfull, dite_true, dif_pos]
    have harr : (A ++ B) ++ [x] = A ++ (B ++ [x]) := by
      simp
    have hlen2 : B.length + 1 = (B ++ [x]).length := by
      simp
    rw [harr, hlen2]
    rw [ih (B ++ [x]) (fun hmem => hA (List.mem_cons_of_mem x hmem))
      (by
        intro hmem
        rcases List.mem_append.mp hmem with h1 | h1
        · exact hB h1
        · simp at h1
          exact hx h1.symm)
      (by
        simp at hlen ⊢
        omega)]
    have hc1 : List.length B < A.length + List.length B + 1 := by
      omega
    have hc2 : A.length + List.length B < QUEUE_SIZE := by
      simp at hlen
      omega
    simp [hc1, hc2]

/-- Draining a queue whose LAST entry is the target deletes exactly that
entry and restores every other entry in its original order. -/
theorem remove_loop_last (t : Int) (A B : queue_t) (hA : t ∉ A) (hB : t ∉ B)
    (hlen : A.length + 1 + B.length ≤ QUEUE_SIZE) :
    remove_loop t B.length (A ++ t :: B) = .ok (B ++ A) := by
  induction A generalizing B with
  | nil =>
    rw [remove_loop]
    have hcond : B.length < (([] : queue_t) ++ t :: B).length := by
      simp
    simp only [hcond, dite_true, List.nil_append, List.headI_cons, List.tail_cons, if_pos rfl]
    rw [remove_loop]
    simp
  | cons x A ih =>
    rw [remove_loop]
    have hx : ¬ x = t := by
      intro hxe
      exact hA (by simp [hxe])
    have hcond : B.length < ((x :: A) ++ t :: B).length := by
      simp
      omega
    have hfull : ((x :: A) ++ t :: B).tail.length < QUEUE_SIZE := by
      simp at hlen ⊢
      omega
    simp only [hcond, dite_true, List.cons_append, List.headI_cons, List.tail_cons, hx,
      if_false, hfull, dite_true, dif_pos]
    have harr : (A ++ t :: B) ++ [x] = A ++ t :: (B ++ [x]) := by
      simp
    have hlen2 : B.length + 1 = (B ++ [x]).length := by
      simp
    rw [harr, hlen2]
    rw [ih (B ++ [x]) (fun hmem => hA (List.mem_cons_of_mem x hmem))
      (by
        intro hmem
        rcases List.mem_append.mp hmem with h1 | h1
        · exact hB h1
        · simp at h1
          exact hx h1.symm)
      (by
        simp at hlen ⊢
        omega)]
    have hc1 : List.length B < A.length + (List.length B + 1) + 1 := by
      omega
    have hc2 : A.length + (List.length B + 1) < QUEUE_SIZE := by
      simp at hlen
      omega
    simp [hc1, hc2]

/-- C2: evaluation of the code at the failing input. With the run queue
holding [1, 2, 3] and process 1 back-referencing the run queue,
scheduler_remove on process 1 deletes pid 1 but leaves the queue as [3, 2]:
the relative dequeue order of pids 2 and 3 is inverted, although the source
comments that the loop maintains the queue order. (The drain loop rereads
the shrinking queue size, so the original last entry is never re-processed
and the remainder is rotated.) -/
theorem C2_remove_breaks_order :
    (scheduler_remove cex2_state idx1).map State.run_queue = .ok [3, 2] ∧
    cex2_state.run_queue = [1, 2, 3] ∧
    (cex2_state.proc_table idx1).scheduler_queue = some .runq ∧
    (cex2_state.proc_table idx1).pid ∈ cex2_state.run_queue := by
  refine ⟨?_, by decide, by decide, by decide⟩
  rw [scheduler_remove_eq_exec]
  decide

/-- C4: evaluation of the code at the failing input. scheduler_sleep puts
pid 1 into the sleep queue but leaves the process's queue back-reference
NULL (none), violating the claimed back-reference consistency; consequently
a subsequent scheduler_remove is a no-op on the queues and pid 1 is STILL in
the sleep queue afterwards: a process held by the sleep queue is not removed
from it, and the half-removed state (pid queued, back-reference cleared) is
observable. -/
theorem C4_sleep_breaks_backref :
    ((scheduler_sleep cex4_state idx1 10).bind fun s' =>
      (scheduler_remove s' idx1).map fun s'' =>
        (s'.sleep_queue, (s'.proc_table idx1).scheduler_queue,
         (s'.proc_table idx1).state, s''.sleep_queue)) =
      .ok ([1], none, .SLEEPING, [1]) := by
  rw [scheduler_sleep_eq_exec]
  simp only [scheduler_remove_eq_exec]
  decide

/-- C7: evaluation of the code at the failing input. Destroying live
process 1 (slot 1, stack pointer 4128 = one past the end of stack region 1,
a nonzero byte 77 at flat stack index 20 inside region 1) removes it from
the run queue, zeroes the PCB, returns the slot to the allocator and
returns 0 — but the private stack region is NOT zeroed: the source zeroes
the PCB first, so the subsequent memset reads the zeroed stack field and
clears PROC_STACK_SIZE bytes at address NULL instead of the stack region;
byte 77 survives. -/
theorem C7_destroy_misses_stack :
    ((kproc_destroy cex7_state (some idx1)).map fun r =>
      (r.1, r.2.stackMem.getD 20 0, r.2.proc_table idx1, r.2.proc_allocator,
       r.2.run_queue)) =
      .ok (0, 77, proc_zero, [1], []) ∧
    cex7_state.stackMem.getD 20 0 = 77 ∧
    (cex7_state.proc_table idx1).state ≠ .NONE ∧
    (cex7_state.proc_table idx1).pid ≠ 0 := by
  refine ⟨?_, by decide, by decide, by decide⟩
  rw [kproc_destroy_eq_exec]
  decide

/-! ## Characterizations of scheduler_add and scheduler_remove -/

theorem scheduler_add_spec (s : State) (i : Fin PROC_MAX)
    (h : s.run_queue.length < QUEUE_SIZE) :
    scheduler_add s i =
      .ok { s with
        proc_table := Function.update s.proc_table i
          { s.proc_table i with scheduler_queue := some .runq, state := .IDLE, cpu_time := 0 },
        run_queue := s.run_queue ++ [(s.proc_table i).pid] } := by
  simp [scheduler_add, queue_in, h]

theorem scheduler_add_overflow (s : State) (i : Fin PROC_MAX)
    (h : ¬ s.run_queue.length < QUEUE_SIZE) :
    scheduler_add s i = .error "Unable to add the process to the scheduler" := by
  simp [scheduler_add, queue_in, h]

theorem scheduler_remove_none_spec (s : State) (i : Fin PROC_MAX)
    (hbr : (s.proc_table i).scheduler_queue = none) :
    scheduler_remove s i =
      .ok (if s.active_proc = some i then { s with active_proc := none } else s) := by
  simp only [scheduler_remove, hbr]

theorem scheduler_remove_runq_spec (s : State) (i : Fin PROC_MAX) (q : queue_t)
    (hbr : (s.proc_table i).scheduler_queue = some .runq)
    (hloop : remove_loop (s.proc_table i).pid 0 s.run_queue = .ok q) :
    scheduler_remove s i =
      .ok (if s.active_proc = some i then
            { s with
              run_queue := q,
              proc_table := Function.update s.proc_table i
                ({ s.proc_table i with scheduler_queue := none }),
              active_proc := none }
          else
            { s with
              run_queue := q,
              proc_table := Function.update s.proc_table i
                ({ s.proc_table i with scheduler_queue := none }) }) := by
  simp only [scheduler_remove, hbr, hloop]

theorem scheduler_remove_sleepq_spec (s : State) (i : Fin PROC_MAX) (q : queue_t)
    (hbr : (s.proc_table i).scheduler_queue = some .sleepq)
    (hloop : remove_loop (s.proc_table i).pid 0 s.sleep_queue = .ok q) :
    scheduler_remove s i =
      .ok (if s.active_proc = some i then
            { s with
              sleep_queue := q,
              proc_table := Function.update s.proc_table i
                ({ s.proc_table i with scheduler_queue := none }),
              active_proc := none }
          else
            { s with
              sleep_queue := q,
              proc_table := Function.update s.proc_table i
                ({ s.proc_table i with scheduler_queue := none }) }) := by
  simp only [scheduler_remove, hbr, hloop]

/-- C9: for every run-queue contents and every process whose pid is not in
it (and which the bounded queue can still accept — otherwise add halts the
kernel and no state exists), scheduler_add followed immediately by
scheduler_remove restores the run queue to exactly its prior contents and
order: the added pid is the LAST queue entry, so the drain loop re-enqueues
every other entry exactly once in order. -/
theorem C9_add_then_remove (s : State) (i : Fin PROC_MAX)
    (h1 : (s.proc_table i).pid ∉ s.run_queue)
    (h2 : s.run_queue.length < QUEUE_SIZE) :
    ∃ s1 s2 : State, scheduler_add s i = .ok s1 ∧ scheduler_remove s1 i = .ok s2 ∧
      s2.run_queue = s.run_queue := by
  refine ⟨_, _, scheduler_add_spec s i h2,
    scheduler_remove_runq_spec _ i s.run_queue ?_ ?_, ?_⟩
  · simp
  · have hll := remove_loop_last (s.proc_table i).pid s.run_queue [] h1 (by simp)
      (by simp; omega)
    simp at hll
    simpa using hll
  · split <;> rfl

/-- C9 witness: at the concrete state wit9_state (run queue [2, 3], process
1 with pid 1 not in it), add-then-remove restores the run queue. -/
theorem C9_add_then_remove_witness :
    ∃ s1 s2 : State, scheduler_add wit9_state idx1 = .ok s1 ∧
      scheduler_remove s1 idx1 = .ok s2 ∧ s2.run_queue = wit9_state.run_queue :=
  C9_add_then_remove wit9_state idx1 (by decide) (by decide)

/-- Characterization of scheduler_sleep on a process whose back-reference
names the run queue while its pid is not queued there (the situation of
every just-dispatched process): the run queue survives unchanged (the drain
re-enqueues all entries), the process ends SLEEPING with a cleared
back-reference, and the sleep queue receives the pid only if it has room
(the enqueue status is ignored). -/
theorem scheduler_sleep_runq_spec (s : State) (i : Fin PROC_MAX) (t : Int)
    (hbr : (s.proc_table i).scheduler_queue = some .runq)
    (hnr : (s.proc_table i).pid ∉ s.run_queue)
    (hrq : s.run_queue.length ≤ QUEUE_SIZE) :
    ∃ s' : State, scheduler_sleep s i t = .ok s' ∧
      s'.run_queue = s.run_queue ∧
      (s'.proc_table i).state = .SLEEPING ∧
      (s'.proc_table i).pid = (s.proc_table i).pid ∧
      (s'.proc_table i).scheduler_queue = none ∧
      s'.sleep_queue = (queue_in s.sleep_queue (s.proc_table i).pid).getD s.sleep_queue := by
  set pcb1 : proc_t := { s.proc_table i with sleep_time := s.ticks + t, state := .SLEEPING } with hpcb1
  set smid : State := { s with proc_table := Function.update s.proc_table i pcb1 } with hsmid
  have hbr2 : (smid.proc_table i).scheduler_queue = some .runq := by
    simp [hsmid, hpcb1, hbr]
  have hpid2 : (smid.proc_table i).pid = (s.proc_table i).pid := by
    simp [hsmid, hpcb1]
  have hrunq2 : smid.run_queue = s.run_queue := by
    simp [hsmid]
  have hloop2 : remove_loop (smid.proc_table i).pid 0 smid.run_queue = .ok s.run_queue := by
    rw [hpid2, hrunq2]
    have hla := remove_loop_absent (s.proc_table i).pid s.run_queue [] hnr (by simp)
      (by simp; omega)
    simp at hla
    simpa using hla
  have hrem := scheduler_remove_runq_spec smid i s.run_queue hbr2 hloop2
  have hmain : scheduler_sleep s i t =
      (match scheduler_remove smid i with
        | .error e => .error e
        | .ok s1 => .ok { s1 with sleep_queue :=
            (queue_in s1.sleep_queue ((s1.proc_table i).pid)).getD s1.sleep_queue }) := by
    simp only [scheduler_sleep]
  by_cases hact : smid.active_proc = some i
  · rw [if_pos hact] at hrem
    rw [hrem] at hmain
    simp only [] at hmain
    refine ⟨_, hmain, ?_, ?_, ?_, ?_, ?_⟩
    all_goals simp [hsmid, hpcb1]
  · rw [if_neg hact] at hrem
    rw [hrem] at hmain
    simp only [] at hmain
    refine ⟨_, hmain, ?_, ?_, ?_, ?_, ?_⟩
    all_goals simp [hsmid, hpcb1]

/-- C10: scheduler_sleep ignores the sleep-queue enqueue status, so with a
full sleep queue the call still returns normally (no kernel halt): the
process ends SLEEPING, its pid is in neither queue (silently dropped), and
the sleep queue is unchanged — whereas scheduler_add on a full run queue is
the fatal diagnostic "Unable to add the process to the scheduler". The
hypotheses describe a just-dispatched process: back-reference still naming
the run queue, pid in neither queue. -/
theorem C10_sleep_overflow_silent (s : State) (i : Fin PROC_MAX) (t : Int)
    (hsfull : s.sleep_queue.length = QUEUE_SIZE)
    (hnotsleep : (s.proc_table i).pid ∉ s.sleep_queue)
    (hbr : (s.proc_table i).scheduler_queue = some .runq)
    (hnotrun : (s.proc_table i).pid ∉ s.run_queue)
    (hrq : s.run_queue.length ≤ QUEUE_SIZE) :
    (∃ s' : State, scheduler_sleep s i t = .ok s' ∧
      (s'.proc_table i).state = .SLEEPING ∧
      (s'.proc_table i).pid ∉ s'.run_queue ∧
      (s'.proc_table i).pid ∉ s'.sleep_queue ∧
      s'.sleep_queue = s.sleep_queue ∧
      s'.run_queue = s.run_queue) ∧
    (∀ (s2 : State) (j : Fin PROC_MAX), s2.run_queue.length = QUEUE_SIZE →
      scheduler_add s2 j = .error "Unable to add the process to the scheduler") := by
  refine ⟨?_, fun s2 j hfull => scheduler_add_overflow s2 j (by omega)⟩
  obtain ⟨s', hsl, hrun, hst, hpid, hbr2, hslq⟩ := scheduler_sleep_runq_spec s i t hbr hnotrun hrq
  have hqfull : queue_in s.sleep_queue (s.proc_table i).pid = none :=
    queue_in_of_full _ (by omega)
  rw [hqfull] at hslq
  simp only [Option.getD_none] at hslq
  refine ⟨s', hsl, hst, ?_, ?_, hslq, hrun⟩
  · rw [hpid, hrun]
    exact hnotrun
  · rw [hpid, hslq]
    exact hnotsleep

/-- C10 witness: at the concrete state wit10_state (sleep queue full with
[5, 6, 7, 8], active process 1 with stale run-queue back-reference, run
queue [2, 3]), scheduler_sleep completes silently with pid 1 dropped. -/
theorem C10_sleep_overflow_silent_witness :
    (∃ s' : State, scheduler_sleep wit10_state idx1 300 = .ok s' ∧
      (s'.proc_table idx1).state = .SLEEPING ∧
      (s'.proc_table idx1).pid ∉ s'.run_queue ∧
      (s'.proc_table idx1).pid ∉ s'.sleep_queue ∧
      s'.sleep_queue = wit10_state.sleep_queue ∧
      s'.run_queue = wit10_state.run_queue) ∧
    (∀ (s2 : State) (j : Fin PROC_MAX), s2.run_queue.length = QUEUE_SIZE →
      scheduler_add s2 j = .error "Unable to add the process to the scheduler") :=
  C10_sleep_overflow_silent wit10_state idx1 300 (by decide) (by decide) (by decide)
    (by decide) (by decide)

/-- C8 counterexample: with an active process present (wit8_state, active
process 1), PROC_GET_NAME invoked with a NULL buffer pointer returns -1 —
refuting the claim that these handlers return -1 ONLY when there is no
active process. -/
theorem C8_get_name_null_buffer :
    ksyscall_proc_get_name wit8_state 0 = (-1, none) ∧
    wit8_state.active_proc = some idx1 ∧
    (wit8_state.proc_table idx1).state = .ACTIVE := by
  decide

/-- C8 amended: PROC_GET_PID returns -1 exactly when there is no active
process and otherwise the active pid; PROC_GET_NAME returns -1 when there is
no active process OR the buffer pointer is NULL, and otherwise copies the
active process's name (up to PROC_NAME_LEN characters) and returns 0. Both
handlers only read the kernel state (their embeddings return no state,
mirroring the read-only source). -/
theorem C8_accessor_contract (s : State) (i : Fin PROC_MAX) (ptr : Int)
    (hact : s.active_proc = some i) :
    ksyscall_proc_get_pid s = (s.proc_table i).pid ∧
    (ptr ≠ 0 →
      ksyscall_proc_get_name s ptr = (0, some ((s.proc_table i).name.take PROC_NAME_LEN))) ∧
    (ptr = 0 → ksyscall_proc_get_name s ptr = (-1, none)) ∧
    (∀ s2 : State, s2.active_proc = none →
      ksyscall_proc_get_pid s2 = -1 ∧ ∀ w : Int, ksyscall_proc_get_name s2 w = (-1, none)) := by
  refine ⟨?_, ?_, ?_, ?_⟩
  · simp [ksyscall_proc_get_pid, hact]
  · intro hp
    simp [ksyscall_proc_get_name, hact, hp]
  · intro hp
    simp [ksyscall_proc_get_name, hact, hp]
  · intro s2 hnone
    constructor
    · simp [ksyscall_proc_get_pid, hnone]
    · intro w
      simp [ksyscall_proc_get_name, hnone]

/-- C8 witness: the amended contract at wit8_state with a non-NULL buffer
pointer: PROC_GET_PID yields pid 1 and PROC_GET_NAME copies "ab". -/
theorem C8_accessor_contract_witness :
    ksyscall_proc_get_pid wit8_state = (wit8_state.proc_table idx1).pid ∧
    ((7 : Int) ≠ 0 →
      ksyscall_proc_get_name wit8_state 7 =
        (0, some ((wit8_state.proc_table idx1).name.take PROC_NAME_LEN))) ∧
    ((7 : Int) = 0 → ksyscall_proc_get_name wit8_state 7 = (-1, none)) ∧
    (∀ s2 : State, s2.active_proc = none →
      ksyscall_proc_get_pid s2 = -1 ∧ ∀ w : Int, ksyscall_proc_get_name s2 w = (-1, none)) :=
  C8_accessor_contract wit8_state idx1 7 (by decide)

/-- C6 counterexample: the dispatcher does NOT dispatch the SLEEP or IO
operations. At cex6_state the active process requests SYSCALL_PROC_SLEEP and
the dispatcher halts with the unrecognized-identifier panic instead of
invoking the sleep handler; likewise for the three IO identifiers (set via
poke_regs). -/
theorem C6_sleep_io_not_dispatched :
    ksyscall_irq_handler cex6_state = .error "Invalid system call!" ∧
    ksyscall_irq_handler (poke_regs cex6_state SYSCALL_IO_READ 0) =
      .error "Invalid system call!" ∧
    ksyscall_irq_handler (poke_regs cex6_state SYSCALL_IO_WRITE 0) =
      .error "Invalid system call!" ∧
    ksyscall_irq_handler (poke_regs cex6_state SYSCALL_IO_FLUSH 0) =
      .error "Invalid system call!" ∧
    cex6_state.active_proc = some idx1 ∧
    (cex6_state.proc_table idx1).trapframe = some (mk_tf SYSCALL_PROC_SLEEP 0) := by
  decide

/-- C6 amended: with an active process and trapframe present, exactly the
five identifiers GET_TIME, GET_NAME, PROC_EXIT, PROC_GET_PID, PROC_GET_NAME
are dispatched — each invoking its handler and writing the handler's integer
result into the saved EAX of the process active after the handler returns —
and every other identifier (including SLEEP and the IO operations, whose
handlers exist in the source but are unreachable from the dispatcher) is
fatal. -/
theorem C6_dispatch_table (s : State) (i : Fin PROC_MAX) (tf : trapframe_t)
    (hact : s.active_proc = some i)
    (htf : (s.proc_table i).trapframe = some tf) :
    (tf.eax = SYSCALL_SYS_GET_TIME →
      ksyscall_irq_handler s = write_eax s (ksyscall_sys_get_time s)) ∧
    (tf.eax = SYSCALL_SYS_GET_NAME →
      ksyscall_irq_handler s = write_eax s (ksyscall_sys_get_name tf.ebx).1) ∧
    (tf.eax = SYSCALL_PROC_EXIT →
      ksyscall_irq_handler s =
        (match ksyscall_proc_exit s with
          | .error e => .error e
          | .ok (rc, s1) => write_eax s1 rc)) ∧
    (tf.eax = SYSCALL_PROC_GET_PID →
      ksyscall_irq_handler s = write_eax s (ksyscall_proc_get_pid s)) ∧
    (tf.eax = SYSCALL_PROC_GET_NAME →
      ksyscall_irq_handler s = write_eax s (ksyscall_proc_get_name s tf.ebx).1) ∧
    (tf.eax ∉ [SYSCALL_SYS_GET_TIME, SYSCALL_SYS_GET_NAME, SYSCALL_PROC_EXIT,
        SYSCALL_PROC_GET_PID, SYSCALL_PROC_GET_NAME] →
      ksyscall_irq_handler s = .error "Invalid system call!") := by
  refine ⟨?_, ?_, ?_, ?_, ?_, ?_⟩
  · intro h
    simp [ksyscall_irq_handler, hact, htf, h]
  · intro h
    simp [ksyscall_irq_handler, hact, htf, h, SYSCALL_SYS_GET_TIME, SYSCALL_SYS_GET_NAME]
  · intro h
    simp [ksyscall_irq_handler, hact, htf, h, SYSCALL_SYS_GET_TIME, SYSCALL_SYS_GET_NAME,
      SYSCALL_PROC_EXIT]
  · intro h
    simp [ksyscall_irq_handler, hact, htf, h, SYSCALL_SYS_GET_TIME, SYSCALL_SYS_GET_NAME,
      SYSCALL_PROC_EXIT, SYSCALL_PROC_GET_PID]
  · intro h
    simp [ksyscall_irq_handler, hact, htf, h, SYSCALL_SYS_GET_TIME, SYSCALL_SYS_GET_NAME,
      SYSCALL_PROC_EXIT, SYSCALL_PROC_GET_PID, SYSCALL_PROC_GET_NAME]
  · intro h
    simp only [List.mem_cons, List.mem_singleton, not_or] at h
    obtain ⟨h1, h2, h3, h4, h5⟩ := h
    simp [ksyscall_irq_handler, hact, htf, h1, h2, h3, h4, h5]

/-- C6 witness: the amended dispatch table at wit8_state (active process 1,
saved EAX = 0, which is none of the five identifiers): the dispatcher is
fatal there, and each dispatched-identifier implication holds vacuously. -/
theorem C6_dispatch_table_witness :
    (((mk_tf 0 0).eax = SYSCALL_SYS_GET_TIME →
      ksyscall_irq_handler wit8_state = write_eax wit8_state (ksyscall_sys_get_time wit8_state)) ∧
    ((mk_tf 0 0).eax = SYSCALL_SYS_GET_NAME →
      ksyscall_irq_handler wit8_state =
        write_eax wit8_state (ksyscall_sys_get_name (mk_tf 0 0).ebx).1) ∧
    ((mk_tf 0 0).eax = SYSCALL_PROC_EXIT →
      ksyscall_irq_handler wit8_state =
        (match ksyscall_proc_exit wit8_state with
          | .error e => .error e
          | .ok (rc, s1) => write_eax s1 rc)) ∧
    ((mk_tf 0 0).eax = SYSCALL_PROC_GET_PID →
      ksyscall_irq_handler wit8_state = write_eax wit8_state (ksyscall_proc_get_pid wit8_state)) ∧
    ((mk_tf 0 0).eax = SYSCALL_PROC_GET_NAME →
      ksyscall_irq_handler wit8_state =
        write_eax wit8_state (ksyscall_proc_get_name wit8_state (mk_tf 0 0).ebx).1) ∧
    ((mk_tf 0 0).eax ∉ [SYSCALL_SYS_GET_TIME, SYSCALL_SYS_GET_NAME, SYSCALL_PROC_EXIT,
        SYSCALL_PROC_GET_PID, SYSCALL_PROC_GET_NAME] →
      ksyscall_irq_handler wit8_state = .error "Invalid system call!")) ∧
    ksyscall_irq_handler wit8_state = .error "Invalid system call!" :=
  ⟨C6_dispatch_table wit8_state idx1 (mk_tf 0 0) (by decide) (by decide),
   (C6_dispatch_table wit8_state idx1 (mk_tf 0 0) (by decide) (by decide)).2.2.2.2.2 (by decide)⟩

/-! ## Facts about pid_to_proc, scheduler_add, and the sweep -/

/-- A successful pid lookup returns a live slot holding that pid. -/
theorem pid_to_proc_pid {s : State} {v : Int} {j : Fin PROC_MAX}
    (h : pid_to_proc s v = some j) :
    (s.proc_table j).pid = v ∧ (s.proc_table j).state ≠ .NONE := by
  simp only [pid_to_proc] at h
  have hf := List.find?_some h
  simpa using hf

/-- pid_to_proc reads only the process table. -/
theorem pid_to_proc_table_only (s : State) (q : queue_t) (v : Int) :
    pid_to_proc { s with sleep_queue := q } v = pid_to_proc s v := rfl

/-- What a successful scheduler_add is: the target becomes IDLE with a
run-queue back-reference and zero timeslice, and its pid is appended to the
run queue tail. -/
theorem scheduler_add_ok_spec {s s' : State} {i : Fin PROC_MAX}
    (h : scheduler_add s i = .ok s') :
    s' = { s with
      proc_table := Function.update s.proc_table i
        ({ s.proc_table i with scheduler_queue := some .runq, state := .IDLE, cpu_time := 0 }),
      run_queue := s.run_queue ++ [(s.proc_table i).pid] } := by
  by_cases hlen : s.run_queue.length < QUEUE_SIZE
  · rw [scheduler_add_spec s i hlen] at h
    cases h
    rfl
  · rw [scheduler_add_overflow s i hlen] at h
    cases h

/-- The head of a nonempty list is one of its elements (headI form). -/
theorem headI_mem_of_ne_nil {l : List Int} (h : l ≠ []) : l.headI ∈ l := by
  cases l with
  | nil => exact absurd rfl h
  | cons a t => exact List.mem_cons_self a t

/-- A nonempty list is its head consed onto its tail (headI form). -/
theorem headI_cons_tail_of_ne_nil {l : List Int} (h : l ≠ []) : l.headI :: l.tail = l := by
  cases l with
  | nil => exact absurd rfl h
  | cons a t => rfl

/-- Everything a completed sweep guarantees about its final state, relative
to its starting state: the active reference, tick count, allocator, stack
memory and next pid are untouched; every process keeps its pid; a process's
state is either unchanged or has become IDLE (woken); every run-queue value
was already in one of the two queues; every sleep-queue value was in the
sleep queue before. -/
theorem sweep_loop_ok_facts (now : Int) :
    ∀ (n i : Nat) (s : State) (ev : List Int) (s' : State) (ev' : List Int),
      s.sleep_queue.length - i ≤ n →
      sweep_loop now i s ev = .ok (s', ev') →
      s'.active_proc = s.active_proc ∧
      s'.ticks = s.ticks ∧
      s'.stackMem = s.stackMem ∧
      s'.proc_allocator = s.proc_allocator ∧
      s'.next_pid = s.next_pid ∧
      (∀ k, (s'.proc_table k).state = (s.proc_table k).state ∨
        (s'.proc_table k).state = .IDLE) ∧
      (∀ k, (s'.proc_table k).pid = (s.proc_table k).pid) ∧
      (∀ v, v ∈ s'.run_queue → v ∈ s.run_queue ∨ v ∈ s.sleep_queue) ∧
      (∀ v, v ∈ s'.sleep_queue → v ∈ s.sleep_queue) := by
  intro n
  induction n with
  | zero =>
    intro i s ev s' ev' hle hok
    rw [sweep_loop] at hok
    have hnc : ¬ i < s.sleep_queue.length := by omega
    simp only [hnc, dite_false] at hok
    cases hok
    exact ⟨rfl, rfl, rfl, rfl, rfl, fun k => Or.inl rfl, fun k => rfl,
      fun v hv => Or.inl hv, fun v hv => hv⟩
  | succ n ih =>
    intro i s ev s' ev' hle hok
    by_cases hc : i < s.sleep_queue.length
    · have hne : s.sleep_queue ≠ [] := by
        intro hq
        rw [hq] at hc
        simp at hc
      have hhead : s.sleep_queue.headI ∈ s.sleep_queue := headI_mem_of_ne_nil hne
      have htail : ∀ v, v ∈ s.sleep_queue.tail → v ∈ s.sleep_queue :=
        fun v hv => List.tail_subset _ hv
      have htlen : s.sleep_queue.tail.length = s.sleep_queue.length - 1 := by
        simp
      rw [sweep_loop] at hok
      simp only [hc, dite_true] at hok
      cases hpp : pid_to_proc { s with sleep_queue := s.sleep_queue.tail } s.sleep_queue.headI with
      | none =>
        rw [hpp] at hok
        simp at hok
      | some j =>
        rw [hpp] at hok
        simp only [] at hok
        have hj := pid_to_proc_pid hpp
        by_cases hge : now ≥ (({ s with sleep_queue := s.sleep_queue.tail } : State).proc_table j).sleep_time
        · rw [if_pos hge] at hok
          cases hadd : scheduler_add { s with sleep_queue := s.sleep_queue.tail } j with
          | error e =>
            rw [hadd] at hok
            simp at hok
          | ok s2 =>
            rw [hadd] at hok
            simp only [] at hok
            have hs2 := scheduler_add_ok_spec hadd
            have hlen2 : (({ s2 with sleep_queue := s.sleep_queue.tail } : State)).sleep_queue.length - (i + 1) ≤ n := by
              simp only []
              omega
            obtain ⟨f1, f2, f3, f4, f5, f6, f7, f8, f9⟩ :=
              ih (i + 1) { s2 with sleep_queue := s.sleep_queue.tail } (ev ++ [s.sleep_queue.headI]) s' ev' hlen2 hok
            rw [hs2] at f1 f2 f3 f4 f5 f6 f7 f8 f9
            simp only [] at f1 f2 f3 f4 f5 f6 f7 f8 f9
            refine ⟨f1, f2, f3, f4, f5, ?_, ?_, ?_, ?_⟩
            · intro k
              rcases f6 k with h6 | h6
              · rw [h6]
                by_cases hk : k = j
                · subst hk
                  simp
                · simp [Function.update_noteq hk]
              · right
                exact h6
            · intro k
              rw [f7 k]
              by_cases hk : k = j
              · subst hk
                simp
              · simp [Function.update_noteq hk]
            · intro v hv
              rcases f8 v hv with h8 | h8
              · rcases List.mem_append.mp h8 with h9 | h9
                · exact Or.inl h9
                · simp at h9
                  right
                  rw [h9]
                  rcases hj with ⟨hjp, _⟩
                  simp only [] at hjp
                  rw [hjp]
                  exact hhead
              · right
                exact htail v h8
            · intro v hv
              exact htail v (f9 v hv)
        · rw [if_neg hge] at hok
          have hlen3 : (({ s with sleep_queue :=
              (queue_in s.sleep_queue.tail s.sleep_queue.headI).getD s.sleep_queue.tail } :
                State)).sleep_queue.length - (i + 1) ≤ n := by
            simp only [queue_in]
            split
            · simp only [Option.getD_some, List.length_append, List.length_cons,
                List.length_nil, htlen]
              omega
            · simp only [Option.getD_none, htlen]
              omega
          obtain ⟨f1, f2, f3, f4, f5, f6, f7, f8, f9⟩ :=
            ih (i + 1) _ (ev ++ [s.sleep_queue.headI]) s' ev' hlen3 hok
          simp only [] at f1 f2 f3 f4 f5 f6 f7 f8 f9
          refine ⟨f1, f2, f3, f4, f5, f6, f7, ?_, ?_⟩
          · intro v hv
            rcases f8 v hv with h8 | h8
            · exact Or.inl h8
            · right
              simp only [queue_in] at h8
              split at h8
              · simp at h8
                rcases h8 with h9 | h9
                · exact htail v h9
                · rw [h9]
                  exact hhead
              · exact htail v h8
          · intro v hv
            have h9 := f9 v hv
            simp only [queue_in] at h9
            split at h9
            · simp at h9
              rcases h9 with h9 | h9
              · exact htail v h9
              · rw [h9]
                exact hhead
            · exact htail v h9
    · rw [sweep_loop] at hok
      simp only [hc, dite_false] at hok
      cases hok
      exact ⟨rfl, rfl, rfl, rfl, rfl, fun k => Or.inl rfl, fun k => rfl,
        fun v hv => Or.inl hv, fun v hv => hv⟩

/-! ## Phase-level facts about scheduler_run -/

/-- Phase 1 either keeps the state or merely clears the active reference. -/
theorem scheduler_run_phase1_spec (s : State) :
    scheduler_run_phase1 s = s ∨
    scheduler_run_phase1 s = { s with active_proc := none } := by
  unfold scheduler_run_phase1
  split
  · split
    · right
      rfl
    · left
      rfl
  · left
    rfl

/-- A completed phase 2 keeps the sleep queue, ticks, stack memory,
allocator, next pid and every process's pid; the run queue either stays or
receives exactly one nonzero pid at the tail. -/
theorem scheduler_run_phase2_facts {s s2 : State}
    (h : scheduler_run_phase2 s = .ok s2) :
    s2.sleep_queue = s.sleep_queue ∧ s2.ticks = s.ticks ∧
    s2.stackMem = s.stackMem ∧ s2.proc_allocator = s.proc_allocator ∧
    s2.next_pid = s.next_pid ∧
    (∀ k, (s2.proc_table k).pid = (s.proc_table k).pid) ∧
    (s2.run_queue = s.run_queue ∨ ∃ v : Int, v ≠ 0 ∧ s2.run_queue = s.run_queue ++ [v]) := by
  unfold scheduler_run_phase2 at h
  split at h
  case h_2 =>
    cases h
    exact ⟨rfl, rfl, rfl, rfl, rfl, fun k => rfl, Or.inl rfl⟩
  case h_1 i heq =>
    split at h
    · simp only [] at h
      split at h
      · rename_i hpid
        split at h
        · cases h
        · rename_i s3 hadd
          cases h
          have hs3 := scheduler_add_ok_spec hadd
          rw [hs3]
          simp only [] at hpid ⊢
          refine ⟨by trivial, by trivial, by trivial, by trivial, by trivial, ?_, ?_⟩
          · intro k
            by_cases hk : k = i
            · subst hk
              simp
            · simp [Function.update_noteq hk]
          · right
            refine ⟨_, ?_, by trivial⟩
            simpa using hpid
      · cases h
        refine ⟨rfl, rfl, rfl, rfl, rfl, ?_, Or.inl rfl⟩
        intro k
        by_cases hk : k = i
        · subst hk
          simp
        · simp [Function.update_noteq hk]
    · cases h
      exact ⟨rfl, rfl, rfl, rfl, rfl, fun k => rfl, Or.inl rfl⟩

/-- A completed final step marks the (necessarily present) active process
ACTIVE and changes nothing else. -/
theorem scheduler_run_final_facts {s s' : State}
    (h : scheduler_run_final s = .ok s') :
    s'.run_queue = s.run_queue ∧ s'.sleep_queue = s.sleep_queue ∧
    ∃ j : Fin PROC_MAX, s.active_proc = some j ∧ s'.active_proc = some j ∧
      (s'.proc_table j).state = .ACTIVE ∧
      (∀ k, k ≠ j → s'.proc_table k = s.proc_table k) := by
  unfold scheduler_run_final at h
  split at h
  · cases h
  case h_2 j heq =>
    cases h
    refine ⟨rfl, rfl, j, heq, heq, by simp, ?_⟩
    intro k hk
    simp [Function.update_noteq hk]

/-- A successful dequeue means the queue was its value consed onto the
remainder. -/
theorem queue_out_some {q : queue_t} {v : Int} {rest : queue_t}
    (h : queue_out q = some (v, rest)) : q = v :: rest := by
  cases q with
  | nil =>
    simp [queue_out] at h
  | cons x xs =>
    simp [queue_out] at h
    rw [h.1, h.2]

/-- A completed dispatch phase never introduces pid 0 into the run queue. -/
theorem scheduler_run_dispatch_no_zero {s s2 : State}
    (h : scheduler_run_dispatch s = .ok s2)
    (h0r : (0 : Int) ∉ s.run_queue) (h0s : (0 : Int) ∉ s.sleep_queue) :
    (0 : Int) ∉ s2.run_queue := by
  unfold scheduler_run_dispatch at h
  split at h
  · cases h
    exact h0r
  · by_cases hemp : queue_is_empty s.sleep_queue
    · simp only [hemp, if_true] at h
      cases hqo : queue_out s.run_queue with
      | none =>
        rw [hqo] at h
        simp only [] at h
        split at h
        · cases h
        · cases h
          exact h0r
      | some vq =>
        obtain ⟨v, q⟩ := vq
        have hcons : s.run_queue = v :: q := queue_out_some hqo
        rw [hqo] at h
        simp only [] at h
        split at h
        · cases h
        · cases h
          intro hmem
          exact h0r (by rw [hcons]; exact List.mem_cons_of_mem _ hmem)
    · have hemp2 : queue_is_empty s.sleep_queue = false := by
        simpa using hemp
      simp only [hemp2, Bool.false_eq_true, if_false] at h
      cases hsw : sweep_loop s.ticks 0 s [] with
      | error e =>
        rw [hsw] at h
        cases h
      | ok pr =>
        obtain ⟨s3, ev⟩ := pr
        rw [hsw] at h
        simp only [] at h
        obtain ⟨_, _, _, _, _, _, _, f8, _⟩ :=
          sweep_loop_ok_facts s.ticks s.sleep_queue.length 0 s [] s3 ev (by omega) hsw
        have h0r3 : (0 : Int) ∉ s3.run_queue := by
          intro hmem
          rcases f8 0 hmem with hm | hm
          · exact h0r hm
          · exact h0s hm
        cases hqo : queue_out s3.run_queue with
        | none =>
          rw [hqo] at h
          simp only [] at h
          split at h
          · cases h
          · cases h
            exact h0r3
        | some vq =>
          obtain ⟨v, q⟩ := vq
          have hcons : s3.run_queue = v :: q := queue_out_some hqo
          rw [hqo] at h
          simp only [] at h
          split at h
          · cases h
          · cases h
            intro hmem
            exact h0r3 (by rw [hcons]; exact List.mem_cons_of_mem _ hmem)

/-- C5 counterexample: kproc_create does enqueue the idle process's pid into
the run queue at its creation: right after kernel initialization (which
creates idle exactly once), the run queue is [0]. -/
theorem C5_idle_enqueued_at_creation :
    kernel_init = .ok init_state ∧
    init_state.run_queue = [0] ∧
    (init_state.proc_table idx0).pid = 0 ∧
    (init_state.proc_table idx0).state = .IDLE ∧
    (init_state.proc_table idx0).name = "kernel_".toList := by
  refine ⟨rfl, by decide, by decide, by decide, by decide⟩

/-- C5 amended: the idle process is created exactly once at initialization
and can never be destroyed (kproc_destroy on any pid-0 entry, or on NULL,
returns -1 and changes nothing), and scheduler_run never (re-)enqueues pid 0
into the run queue: if pid 0 is in neither queue before a completed run()
call, it is not in the run queue afterwards. Only kproc_create places pid 0
in the run queue, once, at the idle process's creation. -/
theorem C5_idle_protected (s : State) (i : Fin PROC_MAX) (s' : State)
    (hpid : (s.proc_table i).pid = 0)
    (h0r : (0 : Int) ∉ s.run_queue)
    (h0s : (0 : Int) ∉ s.sleep_queue)
    (hrun : scheduler_run s = .ok s') :
    kproc_destroy s (some i) = .ok (-1, s) ∧
    (∀ s0 : State, kproc_destroy s0 none = .ok (-1, s0)) ∧
    (0 : Int) ∉ s'.run_queue := by
  refine ⟨?_, fun s0 => rfl, ?_⟩
  · unfold kproc_destroy
    simp [hpid]
  · unfold scheduler_run at hrun
    cases hph2 : scheduler_run_phase2 (scheduler_run_phase1 s) with
    | error e =>
      rw [hph2] at hrun
      cases hrun
    | ok s2 =>
      rw [hph2] at hrun
      simp only [] at hrun
      have hq1r : (scheduler_run_phase1 s).run_queue = s.run_queue := by
        rcases scheduler_run_phase1_spec s with hs1 | hs1 <;> rw [hs1]
      have hq1s : (scheduler_run_phase1 s).sleep_queue = s.sleep_queue := by
        rcases scheduler_run_phase1_spec s with hs1 | hs1 <;> rw [hs1]
      obtain ⟨g1, _, _, _, _, _, g7⟩ := scheduler_run_phase2_facts hph2
      have h0r2 : (0 : Int) ∉ s2.run_queue := by
        rcases g7 with g7 | ⟨v, hv, g7⟩
        · rw [g7, hq1r]
          exact h0r
        · rw [g7, hq1r]
          intro hmem
          rcases List.mem_append.mp hmem with hm | hm
          · exact h0r hm
          · simp at hm
            exact hv hm.symm
      have h0s2 : (0 : Int) ∉ s2.sleep_queue := by
        rw [g1, hq1s]
        exact h0s
      cases hdp : scheduler_run_dispatch s2 with
      | error e =>
        rw [hdp] at hrun
        cases hrun
      | ok s3 =>
        rw [hdp] at hrun
        simp only [] at hrun
        have h0r3 := scheduler_run_dispatch_no_zero hdp h0r2 h0s2
        obtain ⟨hfr, _, _⟩ := scheduler_run_final_facts hrun
        rw [hfr]
        exact h0r3

/-- C5 witness: at wit5_state (pid 0 live, in neither queue; run queue [1]),
destroy of idle fails without change and a completed run() leaves pid 0 out
of the run queue. -/
theorem C5_idle_protected_witness :
    ∃ s' : State, scheduler_run wit5_state = .ok s' ∧
      (kproc_destroy wit5_state (some idx0) = .ok (-1, wit5_state) ∧
        (∀ s0 : State, kproc_destroy s0 none = .ok (-1, s0)) ∧
        (0 : Int) ∉ s'.run_queue) :=
  ⟨_, rfl, C5_idle_protected wit5_state idx0 _ (by decide) (by decide) (by decide) rfl⟩

/-- A prefix of the left list is a prefix of the concatenation. -/
theorem take_append_left {l1 l2 : List Int} {k : Nat} (h : k ≤ l1.length) :
    (l1 ++ l2).take k = l1.take k := by
  rw [List.take_append_eq_append_take]
  have h0 : k - l1.length = 0 := by omega
  simp [h0]

/-- The pids a completed sweep dequeues and evaluates are exactly an initial
prefix of the sweep-start sleep queue (so no entry is evaluated twice and
the sweep is bounded by the queue's size at its start). -/
theorem sweep_loop_ev_take (now : Int) :
    ∀ (n i : Nat) (s : State) (ev : List Int) (s' : State) (ev' : List Int),
      s.sleep_queue.length - i ≤ n →
      sweep_loop now i s ev = .ok (s', ev') →
      ∃ m, m ≤ s.sleep_queue.length - i ∧ ev' = ev ++ s.sleep_queue.take m := by
  intro n
  induction n with
  | zero =>
    intro i s ev s' ev' hle hok
    rw [sweep_loop] at hok
    have hnc : ¬ i < s.sleep_queue.length := by omega
    simp only [hnc, dite_false] at hok
    cases hok
    exact ⟨0, by omega, by simp⟩
  | succ n ih =>
    intro i s ev s' ev' hle hok
    by_cases hc : i < s.sleep_queue.length
    · have hne : s.sleep_queue ≠ [] := by
        intro hq
        rw [hq] at hc
        simp at hc
      have htlen : s.sleep_queue.tail.length = s.sleep_queue.length - 1 := by
        simp
      have hht : s.sleep_queue.headI :: s.sleep_queue.tail = s.sleep_queue :=
        headI_cons_tail_of_ne_nil hne
      rw [sweep_loop] at hok
      simp only [hc, dite_true] at hok
      cases hpp : pid_to_proc { s with sleep_queue := s.sleep_queue.tail } s.sleep_queue.headI with
      | none =>
        rw [hpp] at hok
        simp at hok
      | some j =>
        rw [hpp] at hok
        simp only [] at hok
        by_cases hge : now ≥ (({ s with sleep_queue := s.sleep_queue.tail } : State).proc_table j).sleep_time
        · rw [if_pos hge] at hok
          cases hadd : scheduler_add { s with sleep_queue := s.sleep_queue.tail } j with
          | error e =>
            rw [hadd] at hok
            simp at hok
          | ok s2 =>
            rw [hadd] at hok
            simp only [] at hok
            have hlen2 : (({ s2 with sleep_queue := s.sleep_queue.tail } : State)).sleep_queue.length - (i + 1) ≤ n := by
              simp only []
              omega
            obtain ⟨m, hm, he⟩ :=
              ih (i + 1) { s2 with sleep_queue := s.sleep_queue.tail }
                (ev ++ [s.sleep_queue.headI]) s' ev' hlen2 hok
            simp only [] at hm he
            refine ⟨m + 1, by omega, ?_⟩
            rw [he, ← hht]
            simp [List.take_succ_cons]
        · rw [if_neg hge] at hok
          cases hqi : queue_in s.sleep_queue.tail s.sleep_queue.headI with
          | none =>
            rw [hqi] at hok
            simp only [Option.getD_none] at hok
            have hlen3 : (({ s with sleep_queue := s.sleep_queue.tail } : State)).sleep_queue.length - (i + 1) ≤ n := by
              simp only []
              omega
            obtain ⟨m, hm, he⟩ :=
              ih (i + 1) { s with sleep_queue := s.sleep_queue.tail }
                (ev ++ [s.sleep_queue.headI]) s' ev' hlen3 hok
            simp only [] at hm he
            refine ⟨m + 1, by omega, ?_⟩
            rw [he, ← hht]
            simp [List.take_succ_cons]
          | some q2 =>
            rw [hqi] at hok
            simp only [Option.getD_some] at hok
            have hq2 : q2 = s.sleep_queue.tail ++ [s.sleep_queue.headI] := by
              simp only [queue_in] at hqi
              split at hqi
              · cases hqi
                rfl
              · cases hqi
            have hlen4 : (({ s with sleep_queue := q2 } : State)).sleep_queue.length - (i + 1) ≤ n := by
              simp only [hq2]
              simp
              omega
            obtain ⟨m, hm, he⟩ :=
              ih (i + 1) { s with sleep_queue := q2 }
                (ev ++ [s.sleep_queue.headI]) s' ev' hlen4 hok
            simp only [hq2] at hm he
            simp at hm
            have hmt : m ≤ s.sleep_queue.tail.length := by
              omega
            rw [take_append_left hmt] at he
            refine ⟨m + 1, by omega, ?_⟩
            rw [he, ← hht]
            simp [List.take_succ_cons]
    · rw [sweep_loop] at hok
      simp only [hc, dite_false] at hok
      cases hok
      exact ⟨0, by omega, by simp⟩

/-- When no queued process's wake deadline has passed, a sweep starting at
index i evaluates and re-enqueues each of the remaining (length - i) front
entries exactly once: the evaluated pids are exactly that prefix and the
sleep queue is left rotated by that many positions (in particular, a full
sweep leaves it exactly unchanged). Nothing else in the state changes. -/
theorem sweep_loop_no_wake (now : Int) :
    ∀ (n i : Nat) (s : State) (ev : List Int),
      s.sleep_queue.length - i ≤ n →
      s.sleep_queue.length ≤ QUEUE_SIZE →
      (∀ v ∈ s.sleep_queue, ∃ j, pid_to_proc s v = some j ∧
        now < (s.proc_table j).sleep_time) →
      sweep_loop now i s ev =
        .ok ({ s with sleep_queue := s.sleep_queue.rotate (s.sleep_queue.length - i) },
             ev ++ s.sleep_queue.take (s.sleep_queue.length - i)) := by
  intro n
  induction n with
  | zero =>
    intro i s ev hle hcap hres
    rw [sweep_loop]
    have hnc : ¬ i < s.sleep_queue.length := by omega
    have h0 : s.sleep_queue.length - i = 0 := by omega
    simp [hnc, h0, List.rotate_zero]
  | succ n ih =>
    intro i s ev hle hcap hres
    by_cases hc : i < s.sleep_queue.length
    · have hne : s.sleep_queue ≠ [] := by
        intro hq
        rw [hq] at hc
        simp at hc
      have htlen : s.sleep_queue.tail.length = s.sleep_queue.length - 1 := by
        simp
      have hht : s.sleep_queue.headI :: s.sleep_queue.tail = s.sleep_queue :=
        headI_cons_tail_of_ne_nil hne
      have hhm : s.sleep_queue.headI ∈ s.sleep_queue := headI_mem_of_ne_nil hne
      obtain ⟨j, hj, hjt⟩ := hres s.sleep_queue.headI hhm
      have hpp : pid_to_proc { s with sleep_queue := s.sleep_queue.tail } s.sleep_queue.headI
          = some j := by
        rw [pid_to_proc_table_only]
        exact hj
      have hge : ¬ now ≥ (({ s with sleep_queue := s.sleep_queue.tail } : State).proc_table j).sleep_time := by
        simp only []
        omega
      have hqi : queue_in s.sleep_queue.tail s.sleep_queue.headI
          = some (s.sleep_queue.tail ++ [s.sleep_queue.headI]) := by
        apply queue_in_of_lt
        omega
      rw [sweep_loop]
      simp only [hc, dite_true, hpp, hge, if_false, hqi, Option.getD_some]
      have hres2 : ∀ v ∈ (({ s with sleep_queue :=
          s.sleep_queue.tail ++ [s.sleep_queue.headI] } : State)).sleep_queue,
          ∃ j2, pid_to_proc { s with sleep_queue :=
            s.sleep_queue.tail ++ [s.sleep_queue.headI] } v = some j2 ∧
          now < ((({ s with sleep_queue :=
            s.sleep_queue.tail ++ [s.sleep_queue.headI] } : State)).proc_table j2).sleep_time := by
        intro v hv
        have hvs : v ∈ s.sleep_queue := by
          simp only [] at hv
          rcases List.mem_append.mp hv with hm | hm
          · exact List.tail_subset _ hm
          · simp at hm
            rw [hm]
            exact hhm
        obtain ⟨j2, hj2, hj2t⟩ := hres v hvs
        refine ⟨j2, ?_, ?_⟩
        · rw [pid_to_proc_table_only]
          exact hj2
        · simp only []
          exact hj2t
      have hlen2 : (({ s with sleep_queue :=
          s.sleep_queue.tail ++ [s.sleep_queue.headI] } : State)).sleep_queue.length - (i + 1) ≤ n := by
        simp
        omega
      have hcap2 : (({ s with sleep_queue :=
          s.sleep_queue.tail ++ [s.sleep_queue.headI] } : State)).sleep_queue.length ≤ QUEUE_SIZE := by
        simp
        omega
      rw [ih (i + 1) _ (ev ++ [s.sleep_queue.headI]) hlen2 hcap2 hres2]
      have hlen3 : (s.sleep_queue.tail ++ [s.sleep_queue.headI]).length = s.sleep_queue.length := by
        simp
        omega
      have hk : s.sleep_queue.length - i = (s.sleep_queue.length - (i + 1)) + 1 := by
        omega
      have hrot : (s.sleep_queue.tail ++ [s.sleep_queue.headI]).rotate
          (s.sleep_queue.length - (i + 1)) = s.sleep_queue.rotate (s.sleep_queue.length - i) := by
        rw [hk]
        generalize s.sleep_queue.length - (i + 1) = k
        conv_rhs => rw [← hht]
        rw [List.rotate_cons_succ]
      have hmt : s.sleep_queue.length - (i + 1) ≤ s.sleep_queue.tail.length := by
        omega
      have htk : (s.sleep_queue.tail ++ [s.sleep_queue.headI]).take
          (s.sleep_queue.length - (i + 1)) = s.sleep_queue.tail.take (s.sleep_queue.length - (i + 1)) :=
        take_append_left hmt
      simp only [hlen3, hrot, htk]
      have hev : (ev ++ [s.sleep_queue.headI]) ++
          s.sleep_queue.tail.take (s.sleep_queue.length - (i + 1)) =
          ev ++ s.sleep_queue.take (s.sleep_queue.length - i) := by
        rw [hk]
        generalize s.sleep_queue.length - (i + 1) = k
        conv_rhs => rw [← hht]
        rw [List.take_succ_cons]
        simp
      rw [hev]
    · rw [sweep_loop]
      have h0 : s.sleep_queue.length - i = 0 := by omega
      simp [hc, h0, List.rotate_zero]

/-- C3 counterexample: at cex3_state (sleep queue [1, 2], BOTH wake
deadlines expired at tick 5), a scheduler_run call wakes and dispatches
pid 1 but never dequeues or evaluates pid 2: the dispatcher's shrinking
loop bound (the woken process left the sleep queue) ends the sweep after
one iteration, leaving pid 2 SLEEPING in the sleep queue with an expired
deadline. The sweep itself evaluates exactly [1], not [1, 2]. -/
theorem C3_sweep_skips_entries :
    ((scheduler_run cex3_state).map fun s =>
      (s.sleep_queue, (s.proc_table idx2).state, s.run_queue)) =
      .ok ([2], .SLEEPING, []) ∧
    ((sweep_loop cex3_state.ticks 0 cex3_state []).map fun r =>
      (r.2, r.1.sleep_queue)) = .ok ([1], [2]) ∧
    cex3_state.ticks ≥ (cex3_state.proc_table idx2).sleep_time ∧
    cex3_state.sleep_queue = [1, 2] := by
  refine ⟨?_, ?_, by decide, by decide⟩
  · rw [scheduler_run_eq_exec]
    decide
  · rw [sweep_loop_eq_fuel_base]
    decide

/-- C3 amended: within one scheduler_run call, the sleep-queue sweep
dequeues and evaluates an initial PREFIX of the sleep queue as it was at
sweep start (so every pid is evaluated at most once and the sweep is
bounded by the size at sweep start), and when no queued process's wake
deadline has passed the prefix is the entire queue: every pid is dequeued,
evaluated and re-enqueued exactly once and the sleep queue ends unchanged.
Each wake during the sweep, however, shortens the loop bound by one, so a
trailing entry per woken process goes unevaluated until a later run()
call. -/
theorem C3_sweep_amended (s : State) (s' : State) (ev' : List Int)
    (hok : sweep_loop s.ticks 0 s [] = .ok (s', ev')) :
    (∃ m, m ≤ s.sleep_queue.length ∧ ev' = s.sleep_queue.take m) ∧
    ((∀ v ∈ s.sleep_queue, ∃ j, pid_to_proc s v = some j ∧
        s.ticks < (s.proc_table j).sleep_time) →
      s.sleep_queue.length ≤ QUEUE_SIZE →
      s' = s ∧ ev' = s.sleep_queue) := by
  constructor
  · obtain ⟨m, hm, he⟩ := sweep_loop_ev_take s.ticks s.sleep_queue.length 0 s [] s' ev'
      (by omega) hok
    exact ⟨m, by omega, by simpa using he⟩
  · intro hres hcap
    have hnw := sweep_loop_no_wake s.ticks s.sleep_queue.length 0 s [] (by omega) hcap hres
    rw [hnw] at hok
    simp only [Nat.sub_zero, List.rotate_length, List.take_length, List.nil_append] at hok
    have hs : ({ s with sleep_queue := s.sleep_queue } : State) = s := rfl
    rw [hs] at hok
    cases hok
    exact ⟨rfl, rfl⟩

/-- C3 witness: at wit3_state (sleep queue [1], deadline 9 not yet reached
at tick 5) the sweep completes with evaluated list exactly [1] and the
sleep queue unchanged; the amended theorem applies with both conclusions. -/
theorem C3_sweep_amended_witness :
    (∃ m, m ≤ wit3_state.sleep_queue.length ∧ [(1 : Int)] = wit3_state.sleep_queue.take m) ∧
    ((∀ v ∈ wit3_state.sleep_queue, ∃ j, pid_to_proc wit3_state v = some j ∧
        wit3_state.ticks < (wit3_state.proc_table j).sleep_time) →
      wit3_state.sleep_queue.length ≤ QUEUE_SIZE →
      wit3_state = wit3_state ∧ [(1 : Int)] = wit3_state.sleep_queue) :=
  C3_sweep_amended wit3_state wit3_state [1]
    (by rw [sweep_loop_eq_fuel_base]; decide)

/-! ## Lemmas toward the scheduling invariant (claim C1) -/

/-- scheduler_remove only touches the target's back-reference, the queues
and (possibly) the active reference. -/
theorem scheduler_remove_facts {s s1 : State} {i : Fin PROC_MAX}
    (h : scheduler_remove s i = .ok s1) :
    (∀ k, (s1.proc_table k).state = (s.proc_table k).state) ∧
    (∀ k, (s1.proc_table k).pid = (s.proc_table k).pid) ∧
    (s1.active_proc = none ∨ s1.active_proc = s.active_proc) ∧
    s1.stackMem = s.stackMem ∧ s1.proc_allocator = s.proc_allocator ∧
    s1.next_pid = s.next_pid ∧ s1.ticks = s.ticks := by
  unfold scheduler_remove at h
  simp only [] at h
  have hupd : ∀ k,
      ((Function.update s.proc_table i
        ({ s.proc_table i with scheduler_queue := none }) k).state
        = (s.proc_table k).state) ∧
      ((Function.update s.proc_table i
        ({ s.proc_table i with scheduler_queue := none }) k).pid
        = (s.proc_table k).pid) := by
    intro k
    by_cases hk : k = i
    · subst hk
      simp
    · simp [Function.update_noteq hk]
  split at h
  · split at h
    · cases h
    · cases h
      split
      · exact ⟨fun k => (hupd k).1, fun k => (hupd k).2, Or.inl rfl, rfl, rfl, rfl, rfl⟩
      · exact ⟨fun k => (hupd k).1, fun k => (hupd k).2, Or.inr rfl, rfl, rfl, rfl, rfl⟩
  · split at h
    · cases h
    · cases h
      split
      · exact ⟨fun k => (hupd k).1, fun k => (hupd k).2, Or.inl rfl, rfl, rfl, rfl, rfl⟩
      · exact ⟨fun k => (hupd k).1, fun k => (hupd k).2, Or.inr rfl, rfl, rfl, rfl, rfl⟩
  · cases h
    split
    · exact ⟨fun k => rfl, fun k => rfl, Or.inl rfl, rfl, rfl, rfl, rfl⟩
    · exact ⟨fun k => rfl, fun k => rfl, Or.inr rfl, rfl, rfl, rfl, rfl⟩

/-- scheduler_sleep marks exactly the target SLEEPING, leaves all other
states alone, and either clears or keeps the active reference. -/
theorem scheduler_sleep_state_facts {s s' : State} {i : Fin PROC_MAX} {t : Int}
    (h : scheduler_sleep s i t = .ok s') :
    (∀ k, k ≠ i → (s'.proc_table k).state = (s.proc_table k).state) ∧
    (s'.proc_table i).state = .SLEEPING ∧
    (s'.active_proc = none ∨ s'.active_proc = s.active_proc) := by
  unfold scheduler_sleep at h
  simp only [] at h
  split at h
  · cases h
  · rename_i s1 hrem
    cases h
    obtain ⟨f1, _, f3, _⟩ := scheduler_remove_facts hrem
    refine ⟨?_, ?_, ?_⟩
    · intro k hk
      rw [f1 k]
      simp [Function.update_noteq hk]
    · rw [f1 i]
      simp
    · simpa using f3

/-- write_eax only rewrites the saved context of the active process. -/
theorem write_eax_facts {s s' : State} {rc : Int}
    (h : write_eax s rc = .ok s') :
    (∀ k, ((s'.proc_table k).state = (s.proc_table k).state) ∧
      ((s'.proc_table k).pid = (s.proc_table k).pid)) ∧
    s'.active_proc = s.active_proc ∧
    s'.run_queue = s.run_queue ∧ s'.sleep_queue = s.sleep_queue := by
  unfold write_eax at h
  cases hact : s.active_proc with
  | none =>
    rw [hact] at h
    simp at h
  | some i =>
    rw [hact] at h
    simp only [] at h
    cases htf : (s.proc_table i).trapframe with
    | none =>
      rw [htf] at h
      simp at h
    | some tf =>
      rw [htf] at h
      simp only [] at h
      cases h
      refine ⟨?_, rfl, rfl, rfl⟩
      intro k
      by_cases hk : k = i
      · subst hk
        simp
      · simp [Function.update_noteq hk]

/-- poke_regs only rewrites the saved context of the active process. -/
theorem poke_regs_facts (s : State) (v w : Int) :
    (∀ k, (((poke_regs s v w).proc_table k).state = (s.proc_table k).state) ∧
      (((poke_regs s v w).proc_table k).pid = (s.proc_table k).pid)) ∧
    (poke_regs s v w).active_proc = s.active_proc ∧
    (poke_regs s v w).run_queue = s.run_queue ∧
    (poke_regs s v w).sleep_queue = s.sleep_queue := by
  cases hact : s.active_proc with
  | none =>
    unfold poke_regs
    rw [hact]
    refine ⟨fun k => ⟨by simp, by simp⟩, by simp [hact], by simp, by simp⟩
  | some i =>
    cases htf : (s.proc_table i).trapframe with
    | none =>
      unfold poke_regs
      rw [hact]
      simp only []
      rw [htf]
      refine ⟨fun k => ⟨by simp, by simp⟩, by simp [hact], by simp, by simp⟩
    | some tf =>
      unfold poke_regs
      rw [hact]
      simp only []
      rw [htf]
      refine ⟨?_, by simp [hact], by simp, by simp⟩
      intro k
      by_cases hk : k = i
      · subst hk
        simp
      · simp [Function.update_noteq hk]

/-- State-level view of phase 2: either nothing happens, or the (formerly)
active process is moved to IDLE, everything else keeps its state, and the
active reference is cleared. -/
theorem scheduler_run_phase2_states {s s2 : State}
    (h : scheduler_run_phase2 s = .ok s2) :
    s2 = s ∨
    (s2.active_proc = none ∧ ∃ i : Fin PROC_MAX, s.active_proc = some i ∧
      (∀ k, k ≠ i → (s2.proc_table k).state = (s.proc_table k).state) ∧
      (s2.proc_table i).state = .IDLE) := by
  unfold scheduler_run_phase2 at h
  split at h
  case h_2 =>
    cases h
    exact Or.inl rfl
  case h_1 i heq =>
    split at h
    · simp only [] at h
      split at h
      · split at h
        · cases h
        · rename_i s3 hadd
          cases h
          have hs3 := scheduler_add_ok_spec hadd
          rw [hs3]
          refine Or.inr ⟨rfl, i, heq, ?_, ?_⟩
          · intro k hk
            simp [Function.update_noteq hk]
          · simp
      · cases h
        refine Or.inr ⟨rfl, i, heq, ?_, ?_⟩
        · intro k hk
          simp [Function.update_noteq hk]
        · simp
    · cases h
      exact Or.inl rfl

/-- Dispatch is the identity when a process is already active. -/
theorem scheduler_run_dispatch_active {s s3 : State} {i : Fin PROC_MAX}
    (h : scheduler_run_dispatch s = .ok s3) (hact : s.active_proc = some i) :
    s3 = s := by
  unfold scheduler_run_dispatch at h
  split at h
  · cases h
    rfl
  · rename_i heq
    rw [hact] at heq
    cases heq

/-- Dispatch from an idle scheduler (no active process, no ACTIVE state in
the table) selects some process without making any table state ACTIVE. -/
theorem scheduler_run_dispatch_from_idle {s s3 : State}
    (h : scheduler_run_dispatch s = .ok s3)
    (hact : s.active_proc = none)
    (hnoact : ∀ k, (s.proc_table k).state ≠ .ACTIVE) :
    (∃ j : Fin PROC_MAX, s3.active_proc = some j) ∧
    (∀ k, (s3.proc_table k).state ≠ .ACTIVE) := by
  unfold scheduler_run_dispatch at h
  split at h
  · rename_i j heq
    rw [hact] at heq
    cases heq
  · by_cases hemp : queue_is_empty s.sleep_queue
    · simp only [hemp, if_true] at h
      cases hqo : queue_out s.run_queue with
      | none =>
        rw [hqo] at h
        simp only [] at h
        split at h
        · cases h
        · rename_i j hpp
          cases h
          exact ⟨⟨j, rfl⟩, hnoact⟩
      | some vq =>
        obtain ⟨v, q⟩ := vq
        rw [hqo] at h
        simp only [] at h
        split at h
        · cases h
        · rename_i j hpp
          cases h
          exact ⟨⟨j, rfl⟩, hnoact⟩
    · have hemp2 : queue_is_empty s.sleep_queue = false := by
        simpa using hemp
      simp only [hemp2, Bool.false_eq_true, if_false] at h
      cases hsw : sweep_loop s.ticks 0 s [] with
      | error e =>
        rw [hsw] at h
        cases h
      | ok pr =>
        obtain ⟨s5, ev⟩ := pr
        rw [hsw] at h
        simp only [] at h
        obtain ⟨_, _, _, _, _, f6, _, _, _⟩ :=
          sweep_loop_ok_facts s.ticks s.sleep_queue.length 0 s [] s5 ev (by omega) hsw
        have hnoact5 : ∀ k, (s5.proc_table k).state ≠ .ACTIVE := by
          intro k hk
          rcases f6 k with h6 | h6
          · rw [hk] at h6
            exact hnoact k h6.symm
          · rw [hk] at h6
            cases h6
        cases hqo : queue_out s5.run_queue with
        | none =>
          rw [hqo] at h
          simp only [] at h
          split at h
          · cases h
          · rename_i j hpp
            cases h
            exact ⟨⟨j, rfl⟩, hnoact5⟩
        | some vq =>
          obtain ⟨v, q⟩ := vq
          rw [hqo] at h
          simp only [] at h
          split at h
          · cases h
          · rename_i j hpp
            cases h
            exact ⟨⟨j, rfl⟩, hnoact5⟩

/-- The scheduling decision point, from any state satisfying the scheduling
invariant: a completed scheduler_run ends with EXACTLY ONE process in state
ACTIVE, and the active-process reference names it. -/
theorem scheduler_run_exactly_one {s s' : State}
    (hinv : ActiveInv s) (h : scheduler_run s = .ok s') :
    ∃ j : Fin PROC_MAX, s'.active_proc = some j ∧
      (s'.proc_table j).state = .ACTIVE ∧
      ∀ k, (s'.proc_table k).state = .ACTIVE → k = j := by
  unfold scheduler_run at h
  cases hp2 : scheduler_run_phase2 (scheduler_run_phase1 s) with
  | error e =>
    rw [hp2] at h
    cases h
  | ok s2 =>
    rw [hp2] at h
    simp only [] at h
    cases hdp : scheduler_run_dispatch s2 with
    | error e =>
      rw [hdp] at h
      cases h
    | ok s3 =>
      rw [hdp] at h
      simp only [] at h
      obtain ⟨g1, g2, j, hj1, hj2, hj3, hj4⟩ := scheduler_run_final_facts h
      -- s3.active_proc = some j, and s' marks j ACTIVE leaving others alone
      -- Case on what phases 1 and 2 did.
      have hph1 := scheduler_run_phase1_spec s
      have hinv1 : ∀ k, ((scheduler_run_phase1 s).proc_table k).state = .ACTIVE →
          s.active_proc = some k := by
        rcases hph1 with h1 | h1 <;> rw [h1] <;> exact fun k hk => hinv k hk
      rcases scheduler_run_phase2_states hp2 with h2 | ⟨h2a, i, h2b, h2c, h2d⟩
      · -- phase 2 did nothing: s2 = phase1 s
        subst h2
        rcases hph1 with h1 | h1
        · -- phase 1 did nothing either: s2 = s
          rw [h1] at hdp
          -- dispatch: active case or idle case
          cases hact : s.active_proc with
          | none =>
            have hnoact : ∀ k, (s.proc_table k).state ≠ .ACTIVE := by
              intro k hk
              have := hinv k hk
              rw [hact] at this
              cases this
            obtain ⟨⟨j2, hj2'⟩, hnoact3⟩ := scheduler_run_dispatch_from_idle hdp hact hnoact
            refine ⟨j, hj2, hj3, ?_⟩
            intro k hk
            by_cases hkj : k = j
            · exact hkj
            · rw [hj4 k hkj] at hk
              exact absurd hk (hnoact3 k)
          | some i0 =>
            have hs3 := scheduler_run_dispatch_active hdp hact
            subst hs3
            refine ⟨j, hj2, hj3, ?_⟩
            intro k hk
            by_cases hkj : k = j
            · exact hkj
            · rw [hj4 k hkj] at hk
              have := hinv k hk
              rw [hact] at this
              rw [hj1] at hact
              cases this
              cases hact
              rfl
        · -- phase 1 cleared a stale active reference
          rw [h1] at hdp
          have hactn : ({ s with active_proc := none } : State).active_proc = none := rfl
          have hnoact : ∀ k, (({ s with active_proc := none } : State).proc_table k).state
              ≠ .ACTIVE := by
            intro k hk
            -- phase 1 cleared only because the named process was not ACTIVE
            have hfrom := hinv k hk
            -- s.active_proc = some k, but phase 1 fired, so state k is not ACTIVE
            unfold scheduler_run_phase1 at h1
            split at h1
            · rename_i i0 heq0
              split at h1
              · rename_i hstate
                rw [hfrom] at heq0
                cases heq0
                exact hstate hk
              · have : s = { s with active_proc := none } := h1
                have hc := congrArg State.active_proc this
                simp only [] at hc
                rw [hfrom] at hc
                cases hc
            · rename_i heq0
              rw [hfrom] at heq0
              cases heq0
          obtain ⟨⟨j2, hj2'⟩, hnoact3⟩ := scheduler_run_dispatch_from_idle hdp hactn hnoact
          refine ⟨j, hj2, hj3, ?_⟩
          intro k hk
          by_cases hkj : k = j
          · exact hkj
          · rw [hj4 k hkj] at hk
            exact absurd hk (hnoact3 k)
      · -- phase 2 preempted: no process is ACTIVE entering dispatch
        have hnoact2 : ∀ k, (s2.proc_table k).state ≠ .ACTIVE := by
          intro k hk
          by_cases hki : k = i
          · subst hki
            rw [h2d] at hk
            cases hk
          · rw [h2c k hki] at hk
            have := hinv1 k hk
            rcases hph1 with h1 | h1
            · rw [h1] at h2b
              rw [this] at h2b
              cases h2b
              exact hki rfl
            · rw [h1] at h2b
              cases h2b
        obtain ⟨⟨j2, hj2'⟩, hnoact3⟩ := scheduler_run_dispatch_from_idle hdp h2a hnoact2
        refine ⟨j, hj2, hj3, ?_⟩
        intro k hk
        by_cases hkj : k = j
        · exact hkj
        · rw [hj4 k hkj] at hk
          exact absurd hk (hnoact3 k)

/-- Transferring the scheduling invariant across a step that neither turns
any state ACTIVE nor moves the active reference. -/
theorem ActiveInv_of_states_active {s s' : State}
    (hst : ∀ k, (s'.proc_table k).state = .ACTIVE → (s.proc_table k).state = .ACTIVE)
    (hact : s'.active_proc = s.active_proc) (hinv : ActiveInv s) : ActiveInv s' := by
  intro k hk
  rw [hact]
  exact hinv k (hst k hk)

/-- When the removed process is not the active one, scheduler_remove keeps
the active reference. -/
theorem scheduler_remove_active_kept {s s1 : State} {i : Fin PROC_MAX}
    (h : scheduler_remove s i = .ok s1) (hne : s.active_proc ≠ some i) :
    s1.active_proc = s.active_proc := by
  unfold scheduler_remove at h
  simp only [] at h
  split at h
  · split at h
    · cases h
    · cases h
      split
      · rename_i hcond
        exact absurd hcond hne
      · rfl
  · split at h
    · cases h
    · cases h
      split
      · rename_i hcond
        exact absurd hcond hne
      · rfl
  · cases h
    split
    · rename_i hcond
      exact absurd hcond hne
    · rfl

/-- timer_tick only bumps counters: every process keeps its state and the
active reference is untouched. -/
theorem timer_tick_states (s : State) :
    (∀ k, ((timer_tick s).proc_table k).state = (s.proc_table k).state) ∧
    (timer_tick s).active_proc = s.active_proc := by
  unfold timer_tick scheduler_timer
  cases hact : s.active_proc with
  | none =>
    refine ⟨fun k => ?_, ?_⟩ <;> simp [hact]
  | some i =>
    refine ⟨fun k => ?_, ?_⟩
    · simp only [hact]
      by_cases hk : k = i
      · subst hk
        simp
      · simp [Function.update_noteq hk]
    · simp [hact]

/-- Process creation preserves the scheduling invariant: the new process is
born IDLE and the active reference is untouched. -/
theorem ActiveInv_kproc_create {s s' : State} {ep : Int} {nm : List Char}
    {ty : ProcType} {r : Int}
    (h : kproc_create s ep nm ty = .ok (r, s')) (hinv : ActiveInv s) :
    ActiveInv s' := by
  unfold kproc_create at h
  split at h
  · cases h
    exact hinv
  · rename_i entryv alloc1 hqo
    split at h
    · rename_i hE
      simp only [] at h
      split at h
      · cases h
      · rename_i s2 hadd
        cases h
        rw [scheduler_add_ok_spec hadd]
        intro k hk
        simp only [Function.update_apply] at hk
        by_cases hke : k = (⟨entryv.toNat, by omega⟩ : Fin PROC_MAX)
        · simp only [if_pos hke] at hk
          simp at hk
        · simp only [if_neg hke] at hk
          exact hinv k hk
    · cases h

/-- Process destruction preserves the scheduling invariant. -/
theorem ActiveInv_kproc_destroy {s s' : State} {po : Option (Fin PROC_MAX)} {r : Int}
    (h : kproc_destroy s po = .ok (r, s')) (hinv : ActiveInv s) : ActiveInv s' := by
  unfold kproc_destroy at h
  split at h
  · cases h
    exact hinv
  · rename_i i
    simp only [] at h
    by_cases hg : (s.proc_table i).state = ProcState.NONE ∨ (s.proc_table i).pid = 0
    · rw [if_pos hg] at h
      cases h
      exact hinv
    · rw [if_neg hg] at h
      split at h
      · cases h
      · rename_i s1 hrem
        cases h
        obtain ⟨f1, _, _, _⟩ := scheduler_remove_facts hrem
        intro k hk
        simp only [Function.update_apply] at hk
        by_cases hki : k = i
        · simp only [if_pos hki] at hk
          simp [proc_zero] at hk
        · simp only [if_neg hki] at hk
          rw [f1 k] at hk
          have h3 := hinv k hk
          by_cases hai : s.active_proc = some i
          · rw [hai] at h3
            exact absurd (Option.some.inj h3).symm hki
          · show s1.active_proc = some k
            rw [scheduler_remove_active_kept hrem hai]
            exact h3

/-- The timer interrupt preserves the scheduling invariant. -/
theorem ActiveInv_timer_tick {s : State} (hinv : ActiveInv s) :
    ActiveInv (timer_tick s) := by
  obtain ⟨h1, h2⟩ := timer_tick_states s
  intro k hk
  rw [h1 k] at hk
  rw [h2]
  exact hinv k hk

/-- Loading syscall arguments into the saved context preserves the
scheduling invariant. -/
theorem ActiveInv_poke_regs {s : State} (v w : Int) (hinv : ActiveInv s) :
    ActiveInv (poke_regs s v w) := by
  obtain ⟨hst, hact, _, _⟩ := poke_regs_facts s v w
  intro k hk
  rw [(hst k).1] at hk
  rw [hact]
  exact hinv k hk

/-- The dispatcher's result write-back preserves the scheduling invariant. -/
theorem ActiveInv_write_eax {s s' : State} {rc : Int}
    (h : write_eax s rc = .ok s') (hinv : ActiveInv s) : ActiveInv s' := by
  obtain ⟨hst, hact, _, _⟩ := write_eax_facts h
  intro k hk
  rw [(hst k).1] at hk
  rw [hact]
  exact hinv k hk

/-- A completed scheduling decision preserves the scheduling invariant
(it re-establishes it: the dispatched process is the unique ACTIVE one). -/
theorem ActiveInv_scheduler_run {s s' : State}
    (h : scheduler_run s = .ok s') (hinv : ActiveInv s) : ActiveInv s' := by
  obtain ⟨j, hj1, hj2, hj3⟩ := scheduler_run_exactly_one hinv h
  intro k hk
  rw [hj3 k hk]
  exact hj1

/-- The sleep syscall preserves the scheduling invariant: the active
process (the only possibly-ACTIVE one) goes SLEEPING, so no process is
ACTIVE afterwards. -/
theorem ActiveInv_proc_sleep {s s' : State} {secs r : Int}
    (h : ksyscall_proc_sleep s secs = .ok (r, s')) (hinv : ActiveInv s) :
    ActiveInv s' := by
  unfold ksyscall_proc_sleep at h
  split at h
  · cases h
    exact hinv
  · rename_i i hact
    split at h
    · cases h
    · rename_i s1 hsl
      cases h
      obtain ⟨f1, f2, _⟩ := scheduler_sleep_state_facts hsl
      intro k hk
      by_cases hki : k = i
      · subst hki
        rw [f2] at hk
        cases hk
      · rw [f1 k hki] at hk
        have h3 := hinv k hk
        rw [hact] at h3
        exact absurd (Option.some.inj h3).symm hki

/-- The exit syscall preserves the scheduling invariant: the exiting
process goes NONE (so no process is ACTIVE at the embedded scheduler_run)
and the rescheduling re-establishes the invariant. -/
theorem ActiveInv_proc_exit {s s1 : State} {rc : Int}
    (h : ksyscall_proc_exit s = .ok (rc, s1)) (hinv : ActiveInv s) :
    ActiveInv s1 := by
  unfold ksyscall_proc_exit at h
  split at h
  · cases h
    exact hinv
  · rename_i i hact
    simp only [] at h
    split at h
    · cases h
    · rename_i s2 hrun
      cases h
      refine ActiveInv_scheduler_run hrun ?_
      intro k hk
      simp only [Function.update_apply] at hk
      by_cases hki : k = i
      · simp only [if_pos hki] at hk
        simp at hk
      · simp only [if_neg hki] at hk
        have h3 := hinv k hk
        rw [hact] at h3
        exact absurd (Option.some.inj h3).symm hki

/-- The syscall dispatcher preserves the scheduling invariant: each branch
is a pure handler plus write_eax, except exit, which reschedules. -/
theorem ActiveInv_irq_handler {s s' : State}
    (h : ksyscall_irq_handler s = .ok s') (hinv : ActiveInv s) : ActiveInv s' := by
  unfold ksyscall_irq_handler at h
  split at h
  · cases h
  · rename_i i hact
    split at h
    · cases h
    · rename_i tf htf
      split at h
      · exact ActiveInv_write_eax h hinv
      · split at h
        · exact ActiveInv_write_eax h hinv
        · split at h
          · split at h
            · cases h
            · rename_i rc s1 hexit
              exact ActiveInv_write_eax h (ActiveInv_proc_exit hexit hinv)
          · split at h
            · exact ActiveInv_write_eax h hinv
            · split at h
              · exact ActiveInv_write_eax h hinv
              · cases h

/-- Every reachable kernel state satisfies the scheduling invariant. -/
theorem Reach_ActiveInv {s : State} (h : Reach s) : ActiveInv s := by
  induction h with
  | init s0 h0 =>
    have hk : kernel_init = .ok init_state := by decide
    rw [hk] at h0
    cases h0
    unfold ActiveInv
    decide
  | step t t' hr hst ih =>
    cases hst with
    | create ep nm ty r _ hc => exact ActiveInv_kproc_create hc ih
    | destroy po r _ hd => exact ActiveInv_kproc_destroy hd ih
    | sched _ hsr => exact ActiveInv_scheduler_run hsr ih
    | tick => exact ActiveInv_timer_tick ih
    | syscall v w _ hh => exact ActiveInv_irq_handler hh (ActiveInv_poke_regs v w ih)
    | sleepcall secs r _ hsl => exact ActiveInv_proc_sleep hsl ih

/-- C1: at the end of every completed scheduler_run call invoked from any
reachable kernel state in which the idle process (pid 0) is live, exactly
one process in the process table has state ACTIVE, and the scheduler's
active-process reference points to that process. -/
theorem C1_run_exactly_one_active (s s' : State) (hre : Reach s)
    (hidle : IdleLive s) (hrun : scheduler_run s = .ok s') :
    ∃ j : Fin PROC_MAX, s'.active_proc = some j ∧
      (s'.proc_table j).state = .ACTIVE ∧
      ∀ k : Fin PROC_MAX, (s'.proc_table k).state = .ACTIVE → k = j :=
  scheduler_run_exactly_one (Reach_ActiveInv hre) hrun

/-- C1 at a concrete input: running the scheduler on the freshly
initialized kernel state dispatches a process (the idle process) that is
the unique ACTIVE one. -/
theorem C1_run_exactly_one_active_witness :
    ∃ j : Fin PROC_MAX, post_init_state.active_proc = some j ∧
      (post_init_state.proc_table j).state = .ACTIVE ∧
      ∀ k : Fin PROC_MAX, (post_init_state.proc_table k).state = .ACTIVE → k = j :=
  C1_run_exactly_one_active init_state post_init_state
    (Reach.init init_state (by decide))
    ⟨idx0, by decide, by decide⟩
    (by decide)
